import Mathlib

/-!
Verification of the history_cartopy placement core.

This file gives a shallow embedding, over exact rationals, of the
annotation-placement core of the repository:

* `placement.py` — `PlacementElement`, bounding-box intersection,
  `would_overlap`, the greedy label resolver `resolve_greedy`, the arrow-gap
  resolver `resolve_arrows` and the arrow path segmentation;
* `anchor.py` — `AnchorCircle.resolve` and `get_candidate_offsets`;
* `campaign_styles.py` — the Catmull-Rom / Bezier geometry builder
  `_get_multistop_geometry` and `_compute_segment_info`;
* `pairing.py` — `detect_and_pair`.

Floating-point values are modelled as exact rationals.  The transcendental
library calls (`math.cos`, `math.sin`, `np.linalg.norm`, `np.arctan2`) are
modelled as explicit function parameters, constrained only by the properties a
proof actually needs (e.g. a norm is nonnegative and vanishes only at zero);
every theorem about them therefore holds for the real-valued functions in
particular.
-/

namespace HistoryCartopy

/-- Planar point, `(lon, lat)` or an `(x, y)` offset, in exact coordinates. -/
abbrev Point : Type := ℚ × ℚ

/-- Axis-aligned bounding box `(x1, y1, x2, y2)` as in `placement.py`. -/
structure BBox where
  x1 : ℚ
  y1 : ℚ
  x2 : ℚ
  y2 : ℚ
deriving DecidableEq

/-- Transcription of `PlacementManager._bbox_intersects`: boxes fail to
intersect only under strict separation, so touching boxes intersect. -/
def bboxIntersects (b1 b2 : BBox) : Bool :=
  !(b1.x2 < b2.x1 || b1.x1 > b2.x2 || b1.y2 < b2.y1 || b1.y1 > b2.y2)

/-- Transcription of the `PlacementElement` dataclass of `placement.py`.
The optional `ha`/`va` alignment hints are attached to elements after
construction in the Python code; following the spec they are modelled as
optional fields present from the start. -/
structure PlacementElement where
  id : String
  ty : String
  coords : Point
  offset : Point
  bbox : BBox
  priority : Int
  text : Option String := none
  group : Option String := none
  ha : Option String := none
  va : Option String := none
deriving DecidableEq

/-- Python truthiness of an optional string (`None` and `""` are falsy). -/
def strTruthy : Option String → Bool
  | none => false
  | some s => !(s == "")

/-- The group-exemption test of `would_overlap` / `detect_overlaps`:
`element.group and existing.group and element.group == existing.group`. -/
def sameGroupExempt (e1 e2 : PlacementElement) : Bool :=
  strTruthy e1.group && strTruthy e2.group && e1.group == e2.group

/-- Loop body of `PlacementManager.would_overlap`: collect every stored
element that is not group-exempt and whose bbox intersects the candidate's. -/
def wouldOverlapList (e : PlacementElement) : List PlacementElement → List PlacementElement
  | [] => []
  | ex :: rest =>
    if sameGroupExempt e ex then wouldOverlapList e rest
    else if bboxIntersects e.bbox ex.bbox then ex :: wouldOverlapList e rest
    else wouldOverlapList e rest

/-- Transcription of the `PlacementManager` state: the degrees-per-point
scale and the element store (a Python dict keyed by element id, modelled as
an insertion-ordered list). -/
structure PlacementManager where
  dpp : ℚ
  elements : List PlacementElement
deriving DecidableEq

/-- Python dict insert keyed by the element's id: overwrite in place if the
key is present, append otherwise. -/
def dictInsert (es : List PlacementElement) (e : PlacementElement) : List PlacementElement :=
  if es.any (fun x => x.id == e.id) then
    es.map (fun x => if x.id == e.id then e else x)
  else es ++ [e]

/-- Python dict insert for a generic string-keyed association list. -/
def dictInsertKV {α : Type} (m : List (String × α)) (k : String) (v : α) :
    List (String × α) :=
  if m.any (fun x => x.1 == k) then
    m.map (fun x => if x.1 == k then (k, v) else x)
  else m ++ [(k, v)]

/-- Transcription of `PlacementManager.would_overlap`.  The method reads the
store and builds a fresh list; it assigns to no manager field, so the manager
returned by the call is the input manager. -/
def would_overlap (m : PlacementManager) (e : PlacementElement) :
    List PlacementElement × PlacementManager :=
  (wouldOverlapList e m.elements, m)

theorem wouldOverlapList_eq_filter (e : PlacementElement) (es : List PlacementElement) :
    wouldOverlapList e es =
      es.filter (fun ex => !sameGroupExempt e ex && bboxIntersects e.bbox ex.bbox) := by
  induction es with
  | nil => rfl
  | cons ex rest ih =>
    by_cases hg : sameGroupExempt e ex
    · simp [wouldOverlapList, hg, List.filter, ih]
    · by_cases hb : bboxIntersects e.bbox ex.bbox
      · simp [wouldOverlapList, hg, hb, List.filter, ih]
      · simp [wouldOverlapList, hg, hb, List.filter, ih]

/-- C6: `would_overlap(element)` returns exactly the stored elements whose
bbox intersects the candidate's bbox, except those sharing a non-empty group
with the candidate, and it leaves the manager's element store unchanged. -/
theorem would_overlap_spec (m : PlacementManager) (e : PlacementElement) :
    (would_overlap m e).2 = m ∧
    (would_overlap m e).1 =
      m.elements.filter (fun ex => !sameGroupExempt e ex && bboxIntersects e.bbox ex.bbox) ∧
    (∀ ex : PlacementElement, ex ∈ (would_overlap m e).1 ↔
      ex ∈ m.elements ∧ sameGroupExempt e ex = false ∧ bboxIntersects e.bbox ex.bbox = true) := by
  refine ⟨rfl, wouldOverlapList_eq_filter e m.elements, ?_⟩
  intro ex
  rw [show (would_overlap m e).1 = wouldOverlapList e m.elements from rfl,
    wouldOverlapList_eq_filter, List.mem_filter]
  constructor
  · rintro ⟨hmem, hcond⟩
    rcases Bool.and_eq_true _ _ |>.mp hcond with ⟨hng, hbi⟩
    exact ⟨hmem, by simpa using hng, hbi⟩
  · rintro ⟨hmem, hng, hbi⟩
    exact ⟨hmem, by simp [hng, hbi]⟩

/-- Closed instance of `would_overlap_spec` at a concrete manager and
candidate: one stored element intersects and is reported, the group-sharing
one is not. -/
theorem would_overlap_spec_witness :
    ((would_overlap
        { dpp := 1,
          elements :=
            [{ id := "a", ty := "dot", coords := (0, 0), offset := (0, 0),
               bbox := ⟨0, 0, 1, 1⟩, priority := 100, group := some "g" },
             { id := "b", ty := "dot", coords := (0, 0), offset := (0, 0),
               bbox := ⟨0, 0, 1, 1⟩, priority := 100, group := none }] }
        { id := "c", ty := "label", coords := (0, 0), offset := (0, 0),
          bbox := ⟨0, 0, 2, 2⟩, priority := 50, group := some "g" }).1).map
      PlacementElement.id = ["b"] := by
  have h := would_overlap_spec
    { dpp := 1,
      elements :=
        [{ id := "a", ty := "dot", coords := (0, 0), offset := (0, 0),
           bbox := ⟨0, 0, 1, 1⟩, priority := 100, group := some "g" },
         { id := "b", ty := "dot", coords := (0, 0), offset := (0, 0),
           bbox := ⟨0, 0, 1, 1⟩, priority := 100, group := none }] }
    { id := "c", ty := "label", coords := (0, 0), offset := (0, 0),
      bbox := ⟨0, 0, 2, 2⟩, priority := 50, group := some "g" }
  rw [h.2.1]
  decide

/-- Transcription of the `LabelCandidate` dataclass of `placement.py`. -/
structure LabelCandidate where
  id : String
  element_type : String
  priority : Int
  group : Option String
  positions : List PlacementElement
deriving DecidableEq

/-- Insertion step of the stable descending-priority sort: a candidate goes
in front of the first list entry whose priority is not larger, so entries
with strictly larger priority stay ahead and the inserted candidate (earlier
in the input) precedes equal-priority entries. -/
def insertDescPri (c : LabelCandidate) : List LabelCandidate → List LabelCandidate
  | [] => [c]
  | d :: ds => if d.priority ≤ c.priority then c :: d :: ds else d :: insertDescPri c ds

/-- Model of `sorted(candidates, key=lambda c: -c.priority)` in
`resolve_greedy`: a stable sort, descending by priority. -/
def sortByPriorityDesc : List LabelCandidate → List LabelCandidate
  | [] => []
  | c :: cs => insertDescPri c (sortByPriorityDesc cs)

/-- Accumulated state of `resolve_greedy`: the manager's element store, the
returned `resolved` dict, each candidate's committed variant index
(`candidate.resolved_idx`), and the candidates flagged as unresolved. -/
structure GreedyState where
  elements : List PlacementElement
  resolvedMap : List (String × PlacementElement)
  chosen : List (String × Nat)
  unresolvedIds : List String
deriving DecidableEq

/-- Inner loop of `resolve_greedy`: scan the candidate's positions in their
given order and return the first index and position whose `would_overlap`
result is empty. -/
def scanPositions (es : List PlacementElement) :
    List PlacementElement → Option (Nat × PlacementElement)
  | [] => none
  | p :: ps =>
    if (wouldOverlapList p es).isEmpty then some (0, p)
    else (scanPositions es ps).map (fun ip => (ip.1 + 1, ip.2))

/-- Body of the `for candidate in sorted_candidates` loop of `resolve_greedy`.
On an empty position list the Python code would raise `IndexError`; the model
returns the state unchanged there and the theorems assume nonempty positions. -/
def greedyStep (st : GreedyState) (c : LabelCandidate) : GreedyState :=
  match scanPositions st.elements c.positions with
  | some (idx, p) =>
    { elements := dictInsert st.elements p
      resolvedMap := dictInsertKV st.resolvedMap c.id p
      chosen := st.chosen ++ [(c.id, idx)]
      unresolvedIds := st.unresolvedIds }
  | none =>
    match c.positions with
    | [] => st
    | p :: _ =>
      { elements := dictInsert st.elements p
        resolvedMap := dictInsertKV st.resolvedMap c.id p
        chosen := st.chosen ++ [(c.id, 0)]
        unresolvedIds := st.unresolvedIds ++ [c.id] }

/-- Transcription of `PlacementManager.resolve_greedy`. -/
def resolve_greedy (m : PlacementManager) (cs : List LabelCandidate) :
    GreedyState × PlacementManager :=
  let out := (sortByPriorityDesc cs).foldl greedyStep
    { elements := m.elements, resolvedMap := [], chosen := [], unresolvedIds := [] }
  (out, { m with elements := out.elements })

/-- Claim-side description of one greedy step, following the spec's words:
commit the first position variant, in the candidate's given order, that
overlaps no element stored so far; if every variant overlaps something,
commit variant index 0 and flag the candidate as unresolved; the resolved
map sends the candidate's id to the committed element. -/
def greedySpecStep (st : GreedyState) (c : LabelCandidate) : GreedyState :=
  match c.positions with
  | [] => st
  | p0 :: _ =>
    match (c.positions.findIdx? (fun p => (wouldOverlapList p st.elements).isEmpty)).bind
        (fun i => (c.positions.get? i).map (fun p => (i, p))) with
    | some (i, p) =>
      { elements := dictInsert st.elements p
        resolvedMap := dictInsertKV st.resolvedMap c.id p
        chosen := st.chosen ++ [(c.id, i)]
        unresolvedIds := st.unresolvedIds }
    | none =>
      { elements := dictInsert st.elements p0
        resolvedMap := dictInsertKV st.resolvedMap c.id p0
        chosen := st.chosen ++ [(c.id, 0)]
        unresolvedIds := st.unresolvedIds ++ [c.id] }

/-- Claim-side greedy resolution: fold the spec step over the stably
descending-sorted candidates. -/
def greedySpec (m : PlacementManager) (cs : List LabelCandidate) :
    GreedyState × PlacementManager :=
  let out := (sortByPriorityDesc cs).foldl greedySpecStep
    { elements := m.elements, resolvedMap := [], chosen := [], unresolvedIds := [] }
  (out, { m with elements := out.elements })

theorem scanPositions_eq_findIdx (es : List PlacementElement)
    (ps : List PlacementElement) :
    scanPositions es ps =
      (ps.findIdx? (fun p => (wouldOverlapList p es).isEmpty)).bind
        (fun i => (ps.get? i).map (fun p => (i, p))) := by
  induction ps with
  | nil => rfl
  | cons p ps ih =>
    by_cases hp : (wouldOverlapList p es).isEmpty
    · simp [scanPositions, hp, List.findIdx?_cons]
    · cases hfi : ps.findIdx? (fun q => (wouldOverlapList q es).isEmpty) with
      | none =>
        simp [scanPositions, hp, List.findIdx?_cons, ih, hfi]
      | some j =>
        simp [scanPositions, hp, List.findIdx?_cons, ih, hfi, Option.bind,
          List.getElem?_cons_succ]
        cases ps[j]? <;> rfl

theorem greedyStep_eq_specStep (st : GreedyState) (c : LabelCandidate) :
    greedyStep st c = greedySpecStep st c := by
  unfold greedyStep greedySpecStep
  rw [scanPositions_eq_findIdx]
  cases hcp : c.positions with
  | nil => simp [List.findIdx?]
  | cons p0 rest =>
    cases hfi : ((p0 :: rest).findIdx? (fun p => (wouldOverlapList p st.elements).isEmpty)).bind
        (fun i => ((p0 :: rest).get? i).map (fun p => (i, p))) with
    | none => simp [hfi]
    | some ip => simp [hfi]

theorem mem_insertDescPri (x c : LabelCandidate) (l : List LabelCandidate) :
    x ∈ insertDescPri c l ↔ x = c ∨ x ∈ l := by
  induction l with
  | nil => simp [insertDescPri]
  | cons d ds ih =>
    by_cases h : d.priority ≤ c.priority
    · simp [insertDescPri, h]
    · simp [insertDescPri, h, ih]
      tauto

theorem pairwise_insertDescPri (c : LabelCandidate) (l : List LabelCandidate)
    (h : List.Pairwise (fun a b => b.priority ≤ a.priority) l) :
    List.Pairwise (fun a b => b.priority ≤ a.priority) (insertDescPri c l) := by
  induction l with
  | nil => simp [insertDescPri]
  | cons d ds ih =>
    rcases List.pairwise_cons.mp h with ⟨hd, hds⟩
    by_cases hle : d.priority ≤ c.priority
    · rw [insertDescPri, if_pos hle]
      refine List.pairwise_cons.mpr ⟨?_, h⟩
      intro x hx
      rcases List.mem_cons.mp hx with rfl | hx
      · exact hle
      · exact le_trans (hd x hx) hle
    · rw [insertDescPri, if_neg hle]
      refine List.pairwise_cons.mpr ⟨?_, ih hds⟩
      intro x hx
      rcases (mem_insertDescPri x c ds).mp hx with rfl | hx
      · exact le_of_lt (lt_of_not_le hle)
      · exact hd x hx

theorem filter_insertDescPri (c : LabelCandidate) (l : List LabelCandidate) (p : Int) :
    (insertDescPri c l).filter (fun d => d.priority == p) =
      if c.priority == p then c :: l.filter (fun d => d.priority == p)
      else l.filter (fun d => d.priority == p) := by
  induction l with
  | nil => by_cases h : c.priority == p <;> simp [insertDescPri, List.filter, h]
  | cons d ds ih =>
    by_cases hle : d.priority ≤ c.priority
    · by_cases hc : c.priority == p <;>
        simp [insertDescPri, hle, List.filter, hc]
    · have hlt : c.priority < d.priority := lt_of_not_le hle
      by_cases hc : c.priority == p
      · have hcp : c.priority = p := by exact_mod_cast beq_iff_eq.mp hc
        have hd : (d.priority == p) = false := by
          refine beq_eq_false_iff_ne.mpr ?_
          intro hdp
          omega
        simp [insertDescPri, hle, List.filter, hd, ih, hc]
      · by_cases hd : d.priority == p <;>
          simp [insertDescPri, hle, List.filter, hd, ih, hc]

theorem sortByPriorityDesc_pairwise (cs : List LabelCandidate) :
    List.Pairwise (fun a b => b.priority ≤ a.priority) (sortByPriorityDesc cs) := by
  induction cs with
  | nil => simp [sortByPriorityDesc]
  | cons c cs ih => exact pairwise_insertDescPri c _ ih

theorem sortByPriorityDesc_filter (cs : List LabelCandidate) (p : Int) :
    (sortByPriorityDesc cs).filter (fun d => d.priority == p) =
      cs.filter (fun d => d.priority == p) := by
  induction cs with
  | nil => rfl
  | cons c cs ih =>
    rw [sortByPriorityDesc, filter_insertDescPri]
    by_cases hc : c.priority == p <;> simp [hc, ih, List.filter]

/-- C1: `resolve_greedy` processes candidates in descending priority with
equal-priority candidates kept in input order (the processing order is
priority-sorted and preserves the input's per-priority sublists), and each
candidate commits the first variant, in the candidate's given order, that
overlaps no element stored so far, falling back to variant index 0 plus an
unresolved flag when every variant overlaps; the returned map sends each
candidate's id to its committed element. -/
theorem resolve_greedy_spec_c1 (m : PlacementManager) (cs : List LabelCandidate)
    (hpos : ∀ c ∈ cs, c.positions ≠ []) :
    List.Pairwise (fun a b => b.priority ≤ a.priority) (sortByPriorityDesc cs) ∧
    (∀ p : Int, (sortByPriorityDesc cs).filter (fun d => d.priority == p)
        = cs.filter (fun d => d.priority == p)) ∧
    resolve_greedy m cs = greedySpec m cs := by
  refine ⟨sortByPriorityDesc_pairwise cs, fun p => sortByPriorityDesc_filter cs p, ?_⟩
  unfold resolve_greedy greedySpec
  have hfold : ∀ (l : List LabelCandidate) (st : GreedyState),
      l.foldl greedyStep st = l.foldl greedySpecStep st := by
    intro l
    induction l with
    | nil => intro st; rfl
    | cons c l ih =>
      intro st
      simp only [List.foldl_cons, greedyStep_eq_specStep, ih]
  rw [hfold]

/-- Concrete example for the C1 witness: one obstacle in the store and one
candidate whose first variant overlaps it while the second is free. -/
def exampleMgrC1 : PlacementManager :=
  { dpp := 1,
    elements :=
      [{ id := "obstacle", ty := "dot", coords := (0, 0), offset := (0, 0),
         bbox := ⟨0, 0, 1, 1⟩, priority := 100, group := none }] }

/-- Candidate list for the C1 witness. -/
def exampleCandsC1 : List LabelCandidate :=
  [{ id := "lbl", element_type := "city_label", priority := 48, group := none,
     positions :=
       [{ id := "lbl", ty := "city_label", coords := (0, 0), offset := (0, 0),
          bbox := ⟨0, 0, 2, 2⟩, priority := 48, group := none },
        { id := "lbl", ty := "city_label", coords := (0, 0), offset := (0, 0),
          bbox := ⟨5, 5, 6, 6⟩, priority := 48, group := none }] }]

/-- Closed instance of `resolve_greedy_spec_c1` at a concrete manager and
candidate list, discharging the nonempty-positions hypothesis. -/
theorem resolve_greedy_spec_c1_witness :
    (∀ c ∈ exampleCandsC1, c.positions ≠ []) ∧
    (List.Pairwise (fun a b => b.priority ≤ a.priority) (sortByPriorityDesc exampleCandsC1) ∧
     (∀ p : Int, (sortByPriorityDesc exampleCandsC1).filter (fun d => d.priority == p)
        = exampleCandsC1.filter (fun d => d.priority == p)) ∧
     resolve_greedy exampleMgrC1 exampleCandsC1 = greedySpec exampleMgrC1 exampleCandsC1) :=
  ⟨by decide, resolve_greedy_spec_c1 exampleMgrC1 exampleCandsC1 (by decide)⟩

/-- Variant of an `ArrowCandidate`: the gap multiplier and the arrow path at
that gap.  The `geometry` entry of the Python variant dict is never read by
`resolve_arrows` and is carried opaque, so it is omitted from the model. -/
structure ArrowVariant where
  gap_multiplier : ℚ
  path : List Point
deriving DecidableEq

/-- Transcription of the `ArrowCandidate` dataclass of `placement.py`. -/
structure ArrowCandidate where
  id : String
  campaign_idx : Int
  priority : Int
  group : String
  variants : List ArrowVariant
deriving DecidableEq

/-- The `PRIORITY['campaign_arrow']` constant of `placement.py`. -/
def priorityCampaignArrow : Int := 55

/-- Model of Python `range(0, stop, step)` for a positive step. -/
def rangeStep (stop step : Nat) : List Nat :=
  (List.range ((stop + step - 1) / step)).map (fun i => i * step)

/-- Minimum of two rationals, written so the kernel evaluates it. -/
def qmin (a b : ℚ) : ℚ := if a ≤ b then a else b

/-- Maximum of two rationals, written so the kernel evaluates it. -/
def qmax (a b : ℚ) : ℚ := if a ≤ b then b else a

/-- Minimum of two naturals, written so the kernel evaluates it. -/
def nmin (a b : Nat) : Nat := if a ≤ b then a else b

/-- Minimum of a rational list (used on nonempty chunk coordinate lists). -/
def listMin : List ℚ → ℚ
  | [] => 0
  | x :: xs => xs.foldl qmin x

/-- Maximum of a rational list (used on nonempty chunk coordinate lists). -/
def listMax : List ℚ → ℚ
  | [] => 0
  | x :: xs => xs.foldl qmax x

/-- Path chunking shared by `add_campaign_arrow` and
`_create_arrow_segments_temp`: chunk starts step by `segment_length`, each
chunk is the slice `path[seg_start : min(seg_start + segment_length + 1,
num_points)]`, and chunks shorter than 2 points are skipped. -/
def arrowChunks (path : List Point) (segLen : Nat) : List (Nat × List Point) :=
  ((rangeStep (path.length - 1) segLen).map
      (fun s => (s, (path.drop s).take (nmin (s + segLen + 1) path.length - s)))).filter
    (fun c => decide (2 ≤ c.2.length))

/-- One arrow-segment `PlacementElement` for chunk `(segStart, segment)`: the
bbox is the chunk's tight coordinate bounds expanded by the line-width
padding, the coords are the chunk's middle point. -/
def arrowSegmentElement (dpp : ℚ) (baseId : String) (linewidthPts : ℚ)
    (priority : Int) (group : Option String) (chunk : Nat × List Point) :
    PlacementElement :=
  let padding := linewidthPts * dpp
  let lons := chunk.2.map Prod.fst
  let lats := chunk.2.map Prod.snd
  { id := baseId ++ "_seg" ++ toString chunk.1
    ty := "campaign_arrow"
    coords := chunk.2.getD (chunk.2.length / 2) (0, 0)
    offset := (0, 0)
    bbox := ⟨listMin lons - padding, listMin lats - padding,
             listMax lons + padding, listMax lats + padding⟩
    priority := priority
    group := group }

/-- Transcription of `PlacementManager._create_arrow_segments_temp`: the
temporary probe elements carry `group = None` and are not stored. -/
def createArrowSegmentsTemp (dpp : ℚ) (id : String) (path : List Point)
    (linewidthPts : ℚ := 5/2) (segLen : Nat := 10) : List PlacementElement :=
  if path.length < 2 then []
  else (arrowChunks path segLen).map
    (arrowSegmentElement dpp id linewidthPts priorityCampaignArrow none)

/-- Transcription of `PlacementManager.add_campaign_arrow`, with the explicit
priority and group that `resolve_arrows` passes: returns the created segment
elements and the updated manager. -/
def add_campaign_arrow (m : PlacementManager) (id : String) (path : List Point)
    (linewidthPts : ℚ) (priority : Int) (group : Option String)
    (segLen : Nat := 10) : List PlacementElement × PlacementManager :=
  if path.length < 2 then ([], m)
  else
    let created := (arrowChunks path segLen).map
      (arrowSegmentElement m.dpp id linewidthPts priority group)
    (created, { m with elements := created.foldl dictInsert m.elements })

/-- Accumulated state of `resolve_arrows`: the element store, each arrow's
committed variant index (`candidate.resolved_idx`), and the arrows flagged
(logged) as unresolved. -/
structure ArrowState where
  elements : List PlacementElement
  chosen : List (String × Nat)
  unresolvedIds : List String
deriving DecidableEq

/-- The `has_overlap` computation of `resolve_arrows`: build the variant's
temporary segmentation and test whether any segment's `would_overlap` result
is nonempty. -/
def arrowVariantHasOverlap (dpp : ℚ) (es : List PlacementElement)
    (cid : String) (v : ArrowVariant) : Bool :=
  (createArrowSegmentsTemp dpp ("temp_" ++ cid) v.path (5/2) 10).any
    (fun e => !(wouldOverlapList e es).isEmpty)

/-- Inner loop of `resolve_arrows`: first variant (index and value) whose
temporary segmentation overlaps nothing stored. -/
def scanVariants (dpp : ℚ) (es : List PlacementElement) (cid : String) :
    List ArrowVariant → Option (Nat × ArrowVariant)
  | [] => none
  | v :: vs =>
    if arrowVariantHasOverlap dpp es cid v then
      (scanVariants dpp es cid vs).map (fun iv => (iv.1 + 1, iv.2))
    else some (0, v)

/-- Body of the `for candidate in arrow_candidates` loop of `resolve_arrows`.
With an empty variant list the Python code would raise `IndexError`; the
model returns the state unchanged there and the theorems assume nonempty
variants. -/
def arrowStep (dpp : ℚ) (st : ArrowState) (c : ArrowCandidate) : ArrowState :=
  match scanVariants dpp st.elements c.id c.variants with
  | some (i, v) =>
    let r := add_campaign_arrow ⟨dpp, st.elements⟩ c.id v.path (5/2) c.priority (some c.group)
    { elements := r.2.elements
      chosen := st.chosen ++ [(c.id, i)]
      unresolvedIds := st.unresolvedIds }
  | none =>
    match c.variants.getLast? with
    | none => st
    | some vlast =>
      let r := add_campaign_arrow ⟨dpp, st.elements⟩ c.id vlast.path (5/2) c.priority
        (some c.group)
      { elements := r.2.elements
        chosen := st.chosen ++ [(c.id, c.variants.length - 1)]
        unresolvedIds := st.unresolvedIds ++ [c.id] }

/-- Transcription of `PlacementManager.resolve_arrows`. -/
def resolve_arrows (m : PlacementManager) (cs : List ArrowCandidate) :
    ArrowState × PlacementManager :=
  let out := cs.foldl (arrowStep m.dpp)
    { elements := m.elements, chosen := [], unresolvedIds := [] }
  (out, { m with elements := out.elements })

/-- Claim-side description of one `resolve_arrows` step, following the spec's
words: try the variants in array order, building each variant's segmented
bounding boxes without committing them; commit the first variant none of
whose segments overlaps a stored element, adding its segments to the store;
when every variant has an overlapping segment, commit the last variant and
flag the arrow as unresolved. -/
def arrowSpecStep (dpp : ℚ) (st : ArrowState) (c : ArrowCandidate) : ArrowState :=
  match c.variants.getLast? with
  | none => st
  | some vlast =>
    match (c.variants.findIdx? (fun v => !arrowVariantHasOverlap dpp st.elements c.id v)).bind
        (fun i => (c.variants.get? i).map (fun v => (i, v))) with
    | some (i, v) =>
      let r := add_campaign_arrow ⟨dpp, st.elements⟩ c.id v.path (5/2) c.priority (some c.group)
      { elements := r.2.elements
        chosen := st.chosen ++ [(c.id, i)]
        unresolvedIds := st.unresolvedIds }
    | none =>
      let r := add_campaign_arrow ⟨dpp, st.elements⟩ c.id vlast.path (5/2) c.priority
        (some c.group)
      { elements := r.2.elements
        chosen := st.chosen ++ [(c.id, c.variants.length - 1)]
        unresolvedIds := st.unresolvedIds ++ [c.id] }

/-- Claim-side arrow resolution: fold the spec step over the candidates in
their given order. -/
def arrowsSpec (m : PlacementManager) (cs : List ArrowCandidate) :
    ArrowState × PlacementManager :=
  let out := cs.foldl (arrowSpecStep m.dpp)
    { elements := m.elements, chosen := [], unresolvedIds := [] }
  (out, { m with elements := out.elements })

theorem scanVariants_eq_findIdx (dpp : ℚ) (es : List PlacementElement) (cid : String)
    (vs : List ArrowVariant) :
    scanVariants dpp es cid vs =
      (vs.findIdx? (fun v => !arrowVariantHasOverlap dpp es cid v)).bind
        (fun i => (vs.get? i).map (fun v => (i, v))) := by
  induction vs with
  | nil => rfl
  | cons v vs ih =>
    by_cases hv : arrowVariantHasOverlap dpp es cid v
    · cases hfi : vs.findIdx? (fun w => !arrowVariantHasOverlap dpp es cid w) with
      | none =>
        simp [scanVariants, hv, List.findIdx?_cons, ih, hfi]
      | some j =>
        simp [scanVariants, hv, List.findIdx?_cons, ih, hfi, Option.bind,
          List.getElem?_cons_succ]
        cases vs[j]? <;> rfl
    · simp [scanVariants, hv, List.findIdx?_cons]

theorem arrowStep_eq_specStep (dpp : ℚ) (st : ArrowState) (c : ArrowCandidate) :
    arrowStep dpp st c = arrowSpecStep dpp st c := by
  unfold arrowStep arrowSpecStep
  rw [scanVariants_eq_findIdx]
  cases hcv : c.variants with
  | nil => simp [List.findIdx?]
  | cons v0 rest =>
    have hlast : (v0 :: rest).getLast? = some ((v0 :: rest).getLast (by simp)) := by
      simp [List.getLast?_eq_getLast]
    cases hfi : ((v0 :: rest).findIdx?
        (fun v => !arrowVariantHasOverlap dpp st.elements c.id v)) with
    | none => simp [hlast]
    | some j => simp [hlast]

/-- C2: `resolve_arrows` tries each arrow candidate's variants in array
order, committing the first variant none of whose segmented bounding boxes
overlaps a stored element (adding its segments to the store), and when every
variant has an overlapping segment it commits the last variant and flags the
arrow as unresolved. -/
theorem resolve_arrows_spec_c2 (m : PlacementManager) (cs : List ArrowCandidate)
    (hv : ∀ c ∈ cs, c.variants ≠ []) :
    resolve_arrows m cs = arrowsSpec m cs := by
  unfold resolve_arrows arrowsSpec
  have hfold : ∀ (l : List ArrowCandidate) (st : ArrowState),
      l.foldl (arrowStep m.dpp) st = l.foldl (arrowSpecStep m.dpp) st := by
    intro l
    induction l with
    | nil => intro st; rfl
    | cons c l ih =>
      intro st
      simp only [List.foldl_cons, arrowStep_eq_specStep, ih]
  rw [hfold]

/-- Concrete manager for the C2 witness: one obstacle near the origin. -/
def exampleMgrC2 : PlacementManager :=
  { dpp := 1,
    elements :=
      [{ id := "obstacle", ty := "dot", coords := (0, 0), offset := (0, 0),
         bbox := ⟨0, 0, 1, 1⟩, priority := 100, group := none }] }

/-- Arrow candidates for the C2 witness: the first variant's path runs over
the obstacle, the second is clear. -/
def exampleArrowsC2 : List ArrowCandidate :=
  [{ id := "arrow", campaign_idx := 0, priority := 55, group := "camp0",
     variants :=
       [{ gap_multiplier := 2, path := [((0 : ℚ), (0 : ℚ)), (1, 0)] },
        { gap_multiplier := 3, path := [((20 : ℚ), (20 : ℚ)), (21, 20)] }] }]

/-- Closed instance of `resolve_arrows_spec_c2` at a concrete manager and
arrow list, discharging the nonempty-variants hypothesis. -/
theorem resolve_arrows_spec_c2_witness :
    (∀ c ∈ exampleArrowsC2, c.variants ≠ []) ∧
    resolve_arrows exampleMgrC2 exampleArrowsC2 = arrowsSpec exampleMgrC2 exampleArrowsC2 :=
  ⟨by decide, resolve_arrows_spec_c2 exampleMgrC2 exampleArrowsC2 (by decide)⟩

/-- C9: the temporary probe segments built during arrow resolution carry no
group tag, so the group-exemption rule is not applied while testing a
variant: the `has_overlap` test of a variant is true exactly when some probe
segment's bbox intersects some stored element's bbox, regardless of groups;
only the finally committed segments carry the candidate's group. -/
theorem arrow_probe_groups_c9 :
    (∀ (dpp : ℚ) (id : String) (path : List Point) (lw : ℚ) (sl : Nat),
      ∀ e ∈ createArrowSegmentsTemp dpp id path lw sl, e.group = none) ∧
    (∀ (dpp : ℚ) (es : List PlacementElement) (cid : String) (v : ArrowVariant),
      arrowVariantHasOverlap dpp es cid v = true ↔
        ∃ e ∈ createArrowSegmentsTemp dpp ("temp_" ++ cid) v.path (5/2) 10,
          ∃ x ∈ es, bboxIntersects e.bbox x.bbox = true) ∧
    (∀ (m : PlacementManager) (id : String) (path : List Point) (lw : ℚ)
        (pr : Int) (g : Option String) (sl : Nat),
      ∀ e ∈ (add_campaign_arrow m id path lw pr g sl).1, e.group = g) := by
  have htemp : ∀ (dpp : ℚ) (id : String) (path : List Point) (lw : ℚ) (sl : Nat),
      ∀ e ∈ createArrowSegmentsTemp dpp id path lw sl, e.group = none := by
    intro dpp id path lw sl e he
    unfold createArrowSegmentsTemp at he
    split at he
    · simp at he
    · rcases List.mem_map.mp he with ⟨c, _, rfl⟩
      rfl
  refine ⟨htemp, ?_, ?_⟩
  · intro dpp es cid v
    unfold arrowVariantHasOverlap
    rw [List.any_eq_true]
    constructor
    · rintro ⟨e, he, hb⟩
      refine ⟨e, he, ?_⟩
      have hg := htemp dpp ("temp_" ++ cid) v.path (5/2) 10 e he
      rw [wouldOverlapList_eq_filter] at hb
      have hne : es.filter
          (fun ex => !sameGroupExempt e ex && bboxIntersects e.bbox ex.bbox) ≠ [] := by
        intro hnil
        rw [hnil] at hb
        simp at hb
      rcases List.exists_mem_of_ne_nil _ hne with ⟨x, hx⟩
      rcases List.mem_filter.mp hx with ⟨hxes, hxp⟩
      rcases Bool.and_eq_true _ _ |>.mp hxp with ⟨_, hxi⟩
      exact ⟨x, hxes, hxi⟩
    · rintro ⟨e, he, x, hxes, hxi⟩
      refine ⟨e, he, ?_⟩
      have hg := htemp dpp ("temp_" ++ cid) v.path (5/2) 10 e he
      rw [wouldOverlapList_eq_filter]
      have hxmem : x ∈ es.filter
          (fun ex => !sameGroupExempt e ex && bboxIntersects e.bbox ex.bbox) := by
        refine List.mem_filter.mpr ⟨hxes, ?_⟩
        have : sameGroupExempt e x = false := by
          unfold sameGroupExempt strTruthy
          rw [hg]
          rfl
        simp [this, hxi]
      cases hfil : es.filter
          (fun ex => !sameGroupExempt e ex && bboxIntersects e.bbox ex.bbox) with
      | nil => rw [hfil] at hxmem; simp at hxmem
      | cons y ys => simp [List.isEmpty]
  · intro m id path lw pr g sl e he
    unfold add_campaign_arrow at he
    split at he
    · simp at he
    · rcases List.mem_map.mp he with ⟨c, _, rfl⟩
      rfl

/-- Closed instance of `arrow_probe_groups_c9`: a concrete probe segment has
no group, and a variant whose probe intersects only a stored element sharing
the arrow's own group is still reported as overlapping. -/
theorem arrow_probe_groups_c9_witness :
    (∀ e ∈ createArrowSegmentsTemp 1 "temp_arrow" [((0 : ℚ), (0 : ℚ)), (1, 0)] (5/2) 10,
      e.group = none) ∧
    arrowVariantHasOverlap 1
      [{ id := "s", ty := "dot", coords := (0, 0), offset := (0, 0),
         bbox := ⟨0, 0, 1, 1⟩, priority := 100, group := some "camp0" }]
      "arrow" { gap_multiplier := 2, path := [((0 : ℚ), (0 : ℚ)), (1, 0)] } = true :=
  ⟨arrow_probe_groups_c9.1 1 "temp_arrow" [((0 : ℚ), (0 : ℚ)), (1, 0)] (5/2) 10,
   (arrow_probe_groups_c9.2.1 1
      [{ id := "s", ty := "dot", coords := (0, 0), offset := (0, 0),
         bbox := ⟨0, 0, 1, 1⟩, priority := 100, group := some "camp0" }]
      "arrow" { gap_multiplier := 2, path := [((0 : ℚ), (0 : ℚ)), (1, 0)] }).mpr
     (by norm_num [createArrowSegmentsTemp, arrowChunks, rangeStep, arrowSegmentElement,
        listMin, listMax, qmin, qmax, nmin, bboxIntersects, List.range_succ,
        List.range_zero])⟩

/-- Attachment record built by `AnchorCircle.add_attachment`: type, preferred
angle, priority and the sequential index. -/
structure Attachment where
  ty : String
  preferred_angle : ℚ
  priority : Int
  index : Nat
deriving DecidableEq

/-- Python float modulo `a % b` for `b > 0` (result has the sign of `b`). -/
def qmod (a b : ℚ) : ℚ := a - b * (⌊a / b⌋ : ℤ)

/-- Python `round` on a rational: nearest integer, ties to even. -/
def pyRound (q : ℚ) : ℤ :=
  let f := ⌊q⌋
  let frac := q - f
  if frac < 1/2 then f
  else if 1/2 < frac then f + 1
  else if f % 2 = 0 then f else f + 1

/-- Python `needle in haystack` substring test, on character lists. -/
def charListContains : List Char → List Char → Bool
  | [], needle => needle.isEmpty
  | h :: t, needle => needle.isPrefixOf (h :: t) || charListContains t needle

/-- Python `needle in haystack` on strings. -/
def strContains (hay needle : String) : Bool := charListContains hay.data needle.data

/-- Stable descending-priority insertion for attachments (the two-attachment
branch of `resolve` uses `sorted(self.attachments, key=lambda x: -x['priority'])`). -/
def insertDescPriA (c : Attachment) : List Attachment → List Attachment
  | [] => [c]
  | d :: ds => if d.priority ≤ c.priority then c :: d :: ds else d :: insertDescPriA c ds

/-- Stable sort of attachments, descending by priority. -/
def sortAttachDesc : List Attachment → List Attachment
  | [] => []
  | c :: cs => insertDescPriA c (sortAttachDesc cs)

/-- Python dict insert for a `Nat`-keyed association list (the `_angles`
dict of `AnchorCircle`). -/
def dictInsertNK (m : List (Nat × ℚ)) (k : Nat) (v : ℚ) : List (Nat × ℚ) :=
  if m.any (fun x => x.1 == k) then m.map (fun x => if x.1 == k then (k, v) else x)
  else m ++ [(k, v)]

/-- Python set add for the `used_angles` set, modelled as an
insertion-ordered duplicate-free list. -/
def setAdd (l : List ℚ) (x : ℚ) : List ℚ := if l.contains x then l else l ++ [x]

/-- The `while snapped in used_angles` loop of `AnchorCircle.resolve`, with
explicit fuel; the loop terminates within `n + 2` steps because the
`+ slot_size mod 360` orbit has `n` values and fewer than `n` are used. -/
def findFreeSlot (slotSize : ℚ) (used : List ℚ) : ℚ → Nat → ℚ
  | s, 0 => s
  | s, fuel + 1 =>
    if used.contains s then findFreeSlot slotSize used (qmod (s + slotSize) 360) fuel
    else s

/-- State of the three-or-more branch of `resolve`: the `_angles` dict and
the `used_angles` set. -/
structure ResolveState where
  angles : List (Nat × ℚ)
  used : List ℚ
deriving DecidableEq

/-- Body of the campaign loop of `resolve`: snap the preferred angle to the
nearest slot multiple, advance by slot size (mod 360) while taken, record
the angle and mark it used. -/
def campaignStep (n : Nat) (st : ResolveState) (c : Attachment) : ResolveState :=
  let slotSize : ℚ := 360 / (n : ℚ)
  let snapped : ℚ := (pyRound (c.preferred_angle / slotSize) : ℚ) * slotSize
  let final := findFreeSlot slotSize st.used snapped (n + 2)
  { angles := dictInsertNK st.angles c.index final
    used := setAdd st.used final }

/-- The `all_slots` set of `resolve` as an ascending list:
`i * (360 / n)` for `i < n`. -/
def slotList (n : Nat) : List ℚ := (List.range n).map (fun i : Nat => (i : ℚ) * (360 / (n : ℚ)))

/-- The `for i, item in enumerate(others)` loop of `resolve`: the i-th
remaining attachment takes the i-th free slot, overflow items take
`(max(used_angles) + 30) % 360`. -/
def placeOthers (freeSlots : List ℚ) (maxUsed : ℚ) :
    Nat → List Attachment → List (Nat × ℚ) → List (Nat × ℚ)
  | _, [], acc => acc
  | i, a :: rest, acc =>
    if i < freeSlots.length then
      placeOthers freeSlots maxUsed (i + 1) rest
        (dictInsertNK acc a.index (freeSlots.getD i 0))
    else
      placeOthers freeSlots maxUsed (i + 1) rest
        (dictInsertNK acc a.index (qmod (maxUsed + 30) 360))

/-- The two-attachment branch of `resolve`, applied to the stably
priority-sorted attachment list: the first keeps its preferred angle, the
second goes 180 degrees opposite (mod 360). -/
def resolveTwo : List Attachment → List (Nat × ℚ)
  | a :: b :: _ =>
    dictInsertNK (dictInsertNK [] a.index a.preferred_angle) b.index
      (qmod (a.preferred_angle + 180) 360)
  | _ => []

/-- The three-or-more branch of `resolve`: campaigns snap to slots first,
the remaining attachments fill the free slots in input order. -/
def resolveThreePlus (atts : List Attachment) : List (Nat × ℚ) :=
  let campaigns := atts.filter (fun a => strContains a.ty "campaign")
  let others := atts.filter (fun a => !strContains a.ty "campaign")
  let st := campaigns.foldl (campaignStep atts.length) ⟨[], []⟩
  let freeSlots := (slotList atts.length).filter (fun s => !st.used.contains s)
  placeOthers freeSlots (listMax st.used) 0 others st.angles

/-- Transcription of `AnchorCircle.resolve`, returning the `_angles` dict as
an association list from attachment index to final angle. -/
def resolveAngles (atts : List Attachment) : List (Nat × ℚ) :=
  if atts.length = 0 then []
  else if atts.length = 1 then
    [((atts.headD ⟨"", 0, 0, 0⟩).index, (atts.headD ⟨"", 0, 0, 0⟩).preferred_angle)]
  else if atts.length = 2 then resolveTwo (sortAttachDesc atts)
  else resolveThreePlus atts

theorem dictInsertNK_fresh (m : List (Nat × ℚ)) (k : Nat) (v : ℚ)
    (h : ∀ kv ∈ m, kv.1 ≠ k) : dictInsertNK m k v = m ++ [(k, v)] := by
  unfold dictInsertNK
  rw [if_neg]
  intro hany
  rcases List.any_eq_true.mp hany with ⟨x, hx, hbeq⟩
  exact h x hx (by simpa using hbeq)

theorem placeOthers_map_snd (fs : List ℚ) (mx : ℚ) :
    ∀ (l : List Attachment) (i : Nat) (acc : List (Nat × ℚ)),
      (∀ b ∈ l, ∀ kv ∈ acc, kv.1 ≠ b.index) →
      (l.map (fun a => a.index)).Nodup →
      i + l.length = fs.length →
      (placeOthers fs mx i l acc).map Prod.snd = acc.map Prod.snd ++ fs.drop i := by
  intro l
  induction l with
  | nil =>
    intro i acc _ _ hlen
    simp only [List.length_nil, Nat.add_zero] at hlen
    simp [placeOthers, List.drop_eq_nil_of_le (le_of_eq hlen.symm)]
  | cons a rest ih =>
    intro i acc hfresh hnodup hlen
    have hilt : i < fs.length := by
      simp only [List.length_cons] at hlen
      omega
    rw [placeOthers, if_pos hilt]
    have hfresh_a : ∀ kv ∈ acc, kv.1 ≠ a.index :=
      fun kv hkv => hfresh a (List.mem_cons_self a rest) kv hkv
    rw [dictInsertNK_fresh acc a.index _ hfresh_a]
    rw [List.map_cons, List.nodup_cons] at hnodup
    have ihres := ih (i + 1) (acc ++ [(a.index, fs.getD i 0)])
      (by
        intro b hb kv hkv
        rcases List.mem_append.mp hkv with hkv | hkv
        · exact hfresh b (List.mem_cons_of_mem a hb) kv hkv
        · rcases List.mem_singleton.mp hkv with rfl
          intro hEq
          have hEq2 : a.index = b.index := hEq
          apply hnodup.1
          rw [hEq2]
          exact List.mem_map_of_mem (fun x => x.index) hb)
      hnodup.2
      (by simp only [List.length_cons] at hlen; omega)
    rw [ihres]
    have hdrop : fs.drop i = fs.getD i 0 :: fs.drop (i + 1) := by
      rw [List.getD_eq_getElem fs 0 hilt]
      exact List.drop_eq_getElem_cons hilt
    rw [hdrop]
    simp

/-- C3 (amended): for attachments registered through `add_attachment` (so
with pairwise distinct indices), with `3 ≤ n ≤ 12` of them, all of equal
priority, arbitrary preferred angles, and none whose type name contains
"campaign", `resolve` assigns exactly the angles
`{0, 360/n, …, (n-1)·360/n}`, each slot used exactly once. -/
theorem anchor_resolve_slots_c3 (atts : List Attachment)
    (h3 : 3 ≤ atts.length) (h12 : atts.length ≤ 12)
    (hpri : ∀ a ∈ atts, ∀ b ∈ atts, a.priority = b.priority)
    (hidx : (atts.map (fun a => a.index)).Nodup)
    (hnc : ∀ a ∈ atts, strContains a.ty "campaign" = false) :
    (resolveAngles atts).map Prod.snd =
      (List.range atts.length).map (fun i : Nat => (i : ℚ) * (360 / (atts.length : ℚ))) := by
  have h0 : ¬ atts.length = 0 := by omega
  have h1 : ¬ atts.length = 1 := by omega
  have h2 : ¬ atts.length = 2 := by omega
  rw [resolveAngles, if_neg h0, if_neg h1, if_neg h2]
  have hc : atts.filter (fun a => strContains a.ty "campaign") = [] :=
    List.filter_eq_nil.mpr (fun a ha => by simp [hnc a ha])
  have ho : atts.filter (fun a => !strContains a.ty "campaign") = atts :=
    List.filter_eq_self.mpr (fun a ha => by simp [hnc a ha])
  rw [resolveThreePlus]
  simp only [hc, ho, List.foldl_nil]
  have hfree : (slotList atts.length).filter
      (fun s => !(([] : List ℚ).contains s)) = slotList atts.length := by
    apply List.filter_eq_self.mpr
    intro s _
    rfl
  rw [hfree]
  have hlen : (0 : Nat) + atts.length = (slotList atts.length).length := by
    simp [slotList]
  have hres := placeOthers_map_snd (slotList atts.length)
    (listMax ([] : List ℚ)) atts 0 []
    (by intro b _ kv hkv; simp at hkv) hidx hlen
  rw [hres]
  simp [slotList]

/-- Attachment list refuting C3 as stated: a campaign attachment whose
preferred angle 350 snaps to `round(350/120)·120 = 360`, which is not one of
the slots `{0, 120, 240}`. -/
def exampleAttsC3 : List Attachment :=
  [{ ty := "label", preferred_angle := 135, priority := 5, index := 0 },
   { ty := "icon", preferred_angle := 0, priority := 5, index := 1 },
   { ty := "campaign_in", preferred_angle := 350, priority := 5, index := 2 }]

/-- C3 counterexample: three equal-priority attachments (one campaign with
preferred angle 350) resolve to angles `[360, 0, 120]`, which is not a
permutation of the slot set `{0, 120, 240}`: slot 240 is unused and 360 is
not a slot. -/
theorem anchor_resolve_c3_counterexample :
    3 ≤ exampleAttsC3.length ∧ exampleAttsC3.length ≤ 12 ∧
    (∀ a ∈ exampleAttsC3, ∀ b ∈ exampleAttsC3, a.priority = b.priority) ∧
    (resolveAngles exampleAttsC3).map Prod.snd = [360, 0, 120] ∧
    ¬ (((resolveAngles exampleAttsC3).map Prod.snd).Perm
        ((List.range exampleAttsC3.length).map
          (fun i : Nat => (i : ℚ) * (360 / (exampleAttsC3.length : ℚ))))) := by
  have hlen : exampleAttsC3.length = 3 := by decide
  have heval : (resolveAngles exampleAttsC3).map Prod.snd = [360, 0, 120] := by
    have hc : exampleAttsC3.filter (fun a => strContains a.ty "campaign") =
        [{ ty := "campaign_in", preferred_angle := 350, priority := 5, index := 2 }] := by
      decide
    have ho : exampleAttsC3.filter (fun a => !strContains a.ty "campaign") =
        [{ ty := "label", preferred_angle := 135, priority := 5, index := 0 },
         { ty := "icon", preferred_angle := 0, priority := 5, index := 1 }] := by
      decide
    rw [resolveAngles, if_neg (by decide), if_neg (by decide), if_neg (by decide),
      resolveThreePlus]
    simp only [hc, ho, hlen, List.foldl_cons, List.foldl_nil]
    have hsnap : pyRound ((35 : ℚ) / 12) = 3 := by
      norm_num [pyRound]
    have hstep : campaignStep 3 ⟨[], []⟩
        { ty := "campaign_in", preferred_angle := 350, priority := 5, index := 2 } =
        ⟨[(2, 360)], [360]⟩ := by
      rw [campaignStep]
      norm_num [hsnap, findFreeSlot, dictInsertNK, setAdd]
    rw [hstep]
    have hslots : slotList 3 = [0, 120, 240] := by
      norm_num [slotList, List.range_succ, List.range_zero]
    rw [hslots]
    have hfree : ([(0 : ℚ), 120, 240].filter
        (fun s => !((ResolveState.mk [(2, 360)] [360]).used.contains s))) = [0, 120, 240] := by
      norm_num
    rw [hfree]
    norm_num [placeOthers, dictInsertNK]
  refine ⟨by decide, by decide, by decide, heval, ?_⟩
  rw [heval]
  intro hperm
  have h360 : (360 : ℚ) ∈ (List.range exampleAttsC3.length).map
      (fun i : Nat => (i : ℚ) * (360 / (exampleAttsC3.length : ℚ))) :=
    hperm.mem_iff.mp (by norm_num)
  rw [hlen] at h360
  norm_num [List.range_succ, List.range_zero] at h360

/-- Concrete attachments for the C3 witness: four equal-priority
non-campaign attachments with distinct indices. -/
def exampleAttsC3W : List Attachment :=
  [{ ty := "label", preferred_angle := 135, priority := 7, index := 0 },
   { ty := "icon", preferred_angle := 0, priority := 7, index := 1 },
   { ty := "label", preferred_angle := 200, priority := 7, index := 2 },
   { ty := "icon", preferred_angle := 90, priority := 7, index := 3 }]

/-- Closed instance of `anchor_resolve_slots_c3` at a concrete attachment
list, discharging every hypothesis. -/
theorem anchor_resolve_slots_c3_witness :
    (3 ≤ exampleAttsC3W.length ∧ exampleAttsC3W.length ≤ 12 ∧
      (∀ a ∈ exampleAttsC3W, ∀ b ∈ exampleAttsC3W, a.priority = b.priority) ∧
      (exampleAttsC3W.map (fun a => a.index)).Nodup ∧
      (∀ a ∈ exampleAttsC3W, strContains a.ty "campaign" = false)) ∧
    (resolveAngles exampleAttsC3W).map Prod.snd =
      (List.range exampleAttsC3W.length).map
        (fun i : Nat => (i : ℚ) * (360 / (exampleAttsC3W.length : ℚ))) :=
  ⟨⟨by decide, by decide, by decide, by decide, by decide⟩,
   anchor_resolve_slots_c3 exampleAttsC3W (by decide) (by decide) (by decide)
     (by decide) (by decide)⟩

/-- The `POSITION_PRIORITY` list of `anchor.py` (Imhof order). -/
def positionPriorityList : List String := ["NE", "E", "NW", "W", "SE", "SW", "N", "S"]

/-- The `POSITION_ANGLES` table of `anchor.py` (degrees from North,
clockwise); only the eight listed names are ever looked up. -/
def positionAngle : String → ℚ
  | "NE" => 45
  | "E" => 90
  | "NW" => 315
  | "W" => 270
  | "SE" => 135
  | "SW" => 225
  | "N" => 0
  | "S" => 180
  | _ => 0

/-- The `POSITION_ALIGNMENT` table of `anchor.py`; only the eight listed
names are ever looked up. -/
def positionAlignment : String → String × String
  | "N" => ("center", "bottom")
  | "S" => ("center", "top")
  | "E" => ("left", "center")
  | "W" => ("right", "center")
  | "NE" => ("left", "bottom")
  | "NW" => ("right", "bottom")
  | "SE" => ("left", "top")
  | "SW" => ("right", "top")
  | _ => ("center", "center")

/-- Transcription of `AnchorCircle.get_candidate_offsets`.  The library
composition `cos(math.radians(90 - angle))` is modelled by one abstract
function `cosDeg` of the degree argument (likewise `sinDeg` for sine); the
`text_height_pts` parameter is accepted exactly as in the source. -/
def get_candidate_offsets (cosDeg sinDeg : ℚ → ℚ)
    (radius gapPts textHeightPts : ℚ) : List (String × ℚ × ℚ × String × String) :=
  positionPriorityList.map (fun posName =>
    let angleDeg := positionAngle posName
    let x := (radius + gapPts) * cosDeg (90 - angleDeg)
    let y := (radius + gapPts) * sinDeg (90 - angleDeg)
    let al := positionAlignment posName
    (posName, x, y, al.1, al.2))

/-- C10: the output of `get_candidate_offsets` is independent of its
`text_height_pts` argument: for every trig model, radius and gap, any two
text heights give identical 8-entry candidate lists. -/
theorem get_candidate_offsets_text_height_c10
    (cosDeg sinDeg : ℚ → ℚ) (radius gapPts h1 h2 : ℚ) :
    get_candidate_offsets cosDeg sinDeg radius gapPts h1 =
      get_candidate_offsets cosDeg sinDeg radius gapPts h2 := rfl

/-- Abstract models of the transcendental library calls of the geometry
kernel: `np.linalg.norm([dx, dy])` and `degrees(arctan2(y, x))`.  Theorems
assume of `nrm` only what the proofs need (nonnegativity and definiteness),
so they hold for the Euclidean norm in particular. -/
structure GeoOps where
  nrm : ℚ → ℚ → ℚ
  atan2d : ℚ → ℚ → ℚ

/-- Concrete instantiation of `GeoOps` used by closed witnesses: the taxicab
norm (nonnegative and definite, like the Euclidean norm) and a trivial
angle. -/
def taxicabOps : GeoOps :=
  { nrm := fun x y => |x| + |y|, atan2d := fun _ _ => 0 }

/-- Model of `np.linspace(0, 1, k)`. -/
def linspace01 (k : Nat) : List ℚ :=
  if k = 1 then [0]
  else (List.range k).map (fun i : Nat => (i : ℚ) / ((k : ℚ) - 1))

/-- One coordinate of the Catmull-Rom basis of `_catmull_rom_segment`
(tension 0.5). -/
def crPoly (a b c d t : ℚ) : ℚ :=
  (2 * b + (-a + c) * t + (2 * a - 5 * b + 4 * c - d) * t ^ 2 +
    (-a + 3 * b - 3 * c + d) * t ^ 3) / 2

/-- Transcription of `_catmull_rom_segment`. -/
def catmullRomSegment (p0 p1 p2 p3 : Point) (numSamples : Nat) : List Point :=
  (linspace01 numSamples).map (fun t =>
    (crPoly p0.1 p1.1 p2.1 p3.1 t, crPoly p0.2 p1.2 p2.2 p3.2 t))

/-- Transcription of `_quadratic_bezier`. -/
def quadraticBezier (O : GeoOps) (p0 p2 : Point) (curvature : ℚ)
    (numSamples : Nat) : List Point :=
  let dx := p2.1 - p0.1
  let dy := p2.2 - p0.2
  let length := O.nrm dx dy
  if length = 0 then List.replicate numSamples p0
  else
    let mid : Point := ((p0.1 + p2.1) / 2, (p0.2 + p2.2) / 2)
    let perp : Point := (-dy / length, dx / length)
    let p1 : Point :=
      (mid.1 + perp.1 * length * curvature, mid.2 + perp.2 * length * curvature)
    (linspace01 numSamples).map (fun t =>
      ((1 - t) ^ 2 * p0.1 + 2 * (1 - t) * t * p1.1 + t ^ 2 * p2.1,
       (1 - t) ^ 2 * p0.2 + 2 * (1 - t) * t * p1.2 + t ^ 2 * p2.2))

/-- Consecutive differences of a path (`np.diff(path, axis=0)`). -/
def pathDiffs : List Point → List Point
  | p :: q :: rest => (q.1 - p.1, q.2 - p.2) :: pathDiffs (q :: rest)
  | _ => []

/-- Per-step segment lengths of a path under the norm model. -/
def segmentLengths (O : GeoOps) (path : List Point) : List ℚ :=
  (pathDiffs path).map (fun d => O.nrm d.1 d.2)

/-- Total arc length of a path (`np.sum(segment_lengths)`). -/
def totalLength (O : GeoOps) (path : List Point) : ℚ :=
  (segmentLengths O path).sum

/-- Running sums with a carried accumulator (`np.cumsum`). -/
def cumsumFrom (acc : ℚ) : List ℚ → List ℚ
  | [] => []
  | x :: xs => (acc + x) :: cumsumFrom (acc + x) xs

/-- Model of `np.cumsum`. -/
def cumsum (l : List ℚ) : List ℚ := cumsumFrom 0 l

/-- Model of `np.searchsorted(a, v)` (left side): the first index whose
entry is at least `v`, or `a.length` when none is. -/
def searchsorted (a : List ℚ) (v : ℚ) : Nat :=
  (a.findIdx? (fun c => v ≤ c)).getD a.length

/-- The segment-info dict of `_compute_segment_info`. -/
structure SegInfo where
  path : List Point
  length : ℚ
  midpoint : Point
  normal : Point
  angle : ℚ
deriving DecidableEq

/-- Transcription of `_compute_segment_info`: `None` exactly on a
zero-arc-length path, otherwise the arc-length midpoint, the unit tangent's
normal, and the label angle normalized into `[-90, 90]`. -/
def computeSegmentInfo (O : GeoOps) (path : List Point) : Option SegInfo :=
  let segLens := segmentLengths O path
  let total := segLens.sum
  if total = 0 then none
  else
    let cumulative := cumsum segLens
    let midIdx := nmin (searchsorted cumulative (total / 2)) (path.length - 1)
    let midpoint := path.getD midIdx (0, 0)
    let tangent : Point :=
      if 0 < midIdx ∧ midIdx < path.length - 1 then
        ((path.getD (midIdx + 1) (0, 0)).1 - (path.getD (midIdx - 1) (0, 0)).1,
         (path.getD (midIdx + 1) (0, 0)).2 - (path.getD (midIdx - 1) (0, 0)).2)
      else if midIdx < path.length - 1 then
        ((path.getD (midIdx + 1) (0, 0)).1 - (path.getD midIdx (0, 0)).1,
         (path.getD (midIdx + 1) (0, 0)).2 - (path.getD midIdx (0, 0)).2)
      else
        ((path.getD midIdx (0, 0)).1 - (path.getD (midIdx - 1) (0, 0)).1,
         (path.getD midIdx (0, 0)).2 - (path.getD (midIdx - 1) (0, 0)).2)
    let tlen := O.nrm tangent.1 tangent.2
    let tangentU := if 0 < tlen then (tangent.1 / tlen, tangent.2 / tlen) else tangent
    let normal : Point := (tangentU.2, -tangentU.1)
    let angle0 := O.atan2d tangentU.2 tangentU.1
    let angle1 := if angle0 > 90 then angle0 - 180 else angle0
    let angle2 := if angle1 < -90 then angle1 + 180 else angle1
    some { path := path, length := total, midpoint := midpoint,
           normal := normal, angle := angle2 }

/-- Result record of `_get_multistop_geometry`. -/
structure Geometry where
  full_path : List Point
  segments : List SegInfo
  total_length : ℚ
  waypoints : List Point
deriving DecidableEq

/-- One straight sampled segment of the `segments` path type. -/
def straightSegPath (p q : Point) (numSamples : Nat) : List Point :=
  (linspace01 numSamples).map (fun t => (p.1 + t * (q.1 - p.1), p.2 + t * (q.2 - p.2)))

/-- The i-th Catmull-Rom segment path of the spline branch, with the
boundary control points synthesized by reflection. -/
def crSegPath (points : List Point) (i numSamples : Nat) : List Point :=
  let pt := fun j : Nat => points.getD j (0, 0)
  let p0 := if 0 < i then pt (i - 1)
    else (2 * (pt 0).1 - (pt 1).1, 2 * (pt 0).2 - (pt 1).2)
  let p3 := if i + 2 < points.length then pt (i + 2)
    else (2 * (pt (points.length - 1)).1 - (pt (points.length - 2)).1,
          2 * (pt (points.length - 1)).2 - (pt (points.length - 2)).2)
  catmullRomSegment p0 (pt i) (pt (i + 1)) p3 numSamples

/-- The kept `(segment path, segment info)` pairs of the spline branch: the
`if seg_info:` filter of the Python loop. -/
def crKeptSegments (O : GeoOps) (points : List Point) (numSamples : Nat) :
    List (List Point × SegInfo) :=
  (List.range (points.length - 1)).filterMap (fun i =>
    (computeSegmentInfo O (crSegPath points i numSamples)).map
      (fun info => (crSegPath points i numSamples, info)))

/-- The kept `(segment path, segment info)` pairs of the `segments` branch. -/
def straightKeptSegments (O : GeoOps) (points : List Point) (numSamples : Nat) :
    List (List Point × SegInfo) :=
  (List.range (points.length - 1)).filterMap (fun i =>
    (computeSegmentInfo O
        (straightSegPath (points.getD i (0, 0)) (points.getD (i + 1) (0, 0)) numSamples)).map
      (fun info =>
        (straightSegPath (points.getD i (0, 0)) (points.getD (i + 1) (0, 0)) numSamples,
         info)))

/-- Transcription of `_get_multistop_geometry`. -/
def multistopGeometry (O : GeoOps) (waypoints : List Point) (pathType : String)
    (numSamples : Nat) (curvature : ℚ) : Option Geometry :=
  if waypoints.length < 2 then none
  else if pathType == "segments" then
    let kept := straightKeptSegments O waypoints numSamples
    if kept.isEmpty then none
    else some
      { full_path := (kept.map Prod.fst).join
        segments := kept.map Prod.snd
        total_length := ((kept.map Prod.snd).map SegInfo.length).sum
        waypoints := waypoints }
  else if waypoints.length == 2 then
    let segPath := quadraticBezier O (waypoints.getD 0 (0, 0)) (waypoints.getD 1 (0, 0))
        curvature numSamples
    match computeSegmentInfo O segPath with
    | none => none
    | some info => some
      { full_path := segPath
        segments := [info]
        total_length := info.length
        waypoints := waypoints }
  else
    let kept := crKeptSegments O waypoints numSamples
    if kept.isEmpty then none
    else some
      { full_path := (kept.map Prod.fst).join
        segments := kept.map Prod.snd
        total_length := ((kept.map Prod.snd).map SegInfo.length).sum
        waypoints := waypoints }

theorem computeSegmentInfo_none_iff (O : GeoOps) (path : List Point) :
    computeSegmentInfo O path = none ↔ totalLength O path = 0 := by
  rw [computeSegmentInfo, totalLength]
  by_cases h : (segmentLengths O path).sum = 0
  · simp [h]
  · simp [h]

/-- C8: on degenerate geometry the geometry kernel returns an explicit empty
result instead of raising: `_get_multistop_geometry` returns `None` whenever
fewer than 2 waypoints are supplied, and `_compute_segment_info` returns
`None` exactly when the path's total arc length is zero. -/
theorem geometry_degenerate_c8 :
    (∀ (O : GeoOps) (wps : List Point) (pt : String) (k : Nat) (curv : ℚ),
      wps.length < 2 → multistopGeometry O wps pt k curv = none) ∧
    (∀ (O : GeoOps) (path : List Point),
      computeSegmentInfo O path = none ↔ totalLength O path = 0) := by
  constructor
  · intro O wps pt k curv h
    rw [multistopGeometry, if_pos h]
  · intro O path
    exact computeSegmentInfo_none_iff O path

/-- Closed instance of `geometry_degenerate_c8`: a single-waypoint campaign
gets no geometry, and a two-point zero-length path gets no segment info. -/
theorem geometry_degenerate_c8_witness :
    ([((3 : ℚ), (4 : ℚ))].length < 2) ∧
    multistopGeometry taxicabOps [((3 : ℚ), (4 : ℚ))] "spline" 50 0 = none ∧
    (computeSegmentInfo taxicabOps [((1 : ℚ), (1 : ℚ)), (1, 1)] = none ↔
      totalLength taxicabOps [((1 : ℚ), (1 : ℚ)), (1, 1)] = 0) :=
  ⟨by decide,
   geometry_degenerate_c8.1 taxicabOps [((3 : ℚ), (4 : ℚ))] "spline" 50 0 (by decide),
   geometry_degenerate_c8.2 taxicabOps [((1 : ℚ), (1 : ℚ)), (1, 1)]⟩

theorem mem_of_head?_eq {α : Type} {l : List α} {a : α} (h : l.head? = some a) :
    a ∈ l := by
  cases l with
  | nil => cases h
  | cons x xs =>
    rw [List.head?_cons, Option.some.injEq] at h
    rw [← h]
    exact List.mem_cons_self x xs

theorem mem_of_getLast?_eq {α : Type} : ∀ {l : List α} {a : α},
    l.getLast? = some a → a ∈ l
  | [], _, h => by cases h
  | [x], a, h => by
    rw [show ([x] : List α).getLast? = some x from rfl, Option.some.injEq] at h
    rw [← h]
    exact List.mem_singleton.mpr rfl
  | x :: y :: xs, a, h => by
    rw [List.getLast?_cons_cons] at h
    exact List.mem_cons_of_mem x (mem_of_getLast?_eq h)

theorem linspace01_head (k : Nat) (hk : 2 ≤ k) : (linspace01 k).head? = some 0 := by
  rw [linspace01, if_neg (by omega)]
  obtain ⟨j, rfl⟩ : ∃ j, k = j + 1 := ⟨k - 1, by omega⟩
  rw [List.range_succ_eq_map]
  simp

theorem linspace01_getLast (k : Nat) (hk : 2 ≤ k) :
    (linspace01 k).getLast? = some 1 := by
  rw [linspace01, if_neg (by omega)]
  obtain ⟨j, rfl⟩ : ∃ j, k = j + 1 := ⟨k - 1, by omega⟩
  rw [List.range_succ, List.map_append, List.map_singleton, List.getLast?_concat]
  have hj0 : ((j : ℚ)) ≠ 0 := Nat.cast_ne_zero.mpr (by omega)
  have : ((j : ℚ)) / (((j + 1 : Nat) : ℚ) - 1) = 1 := by
    push_cast
    rw [add_sub_cancel_right]
    exact div_self hj0
  rw [this]

theorem crPoly_zero (a b c d : ℚ) : crPoly a b c d 0 = b := by
  rw [crPoly]; ring

theorem crPoly_one (a b c d : ℚ) : crPoly a b c d 1 = c := by
  rw [crPoly]; ring

theorem catmullRomSegment_head (p0 p1 p2 p3 : Point) (k : Nat) (hk : 2 ≤ k) :
    (catmullRomSegment p0 p1 p2 p3 k).head? = some p1 := by
  rw [catmullRomSegment, List.head?_map, linspace01_head k hk]
  simp [crPoly_zero]

theorem catmullRomSegment_getLast (p0 p1 p2 p3 : Point) (k : Nat) (hk : 2 ≤ k) :
    (catmullRomSegment p0 p1 p2 p3 k).getLast? = some p2 := by
  rw [catmullRomSegment, List.getLast?_map, linspace01_getLast k hk]
  simp [crPoly_one]

theorem crSegPath_head (points : List Point) (i k : Nat) (hk : 2 ≤ k) :
    (crSegPath points i k).head? = some (points.getD i (0, 0)) := by
  rw [crSegPath]
  exact catmullRomSegment_head _ _ _ _ k hk

theorem crSegPath_getLast (points : List Point) (i k : Nat) (hk : 2 ≤ k) :
    (crSegPath points i k).getLast? = some (points.getD (i + 1) (0, 0)) := by
  rw [crSegPath]
  exact catmullRomSegment_getLast _ _ _ _ k hk

theorem segmentLengths_sum_zero_all_eq (O : GeoOps)
    (hnn : ∀ x y, 0 ≤ O.nrm x y) (hdef : ∀ x y, O.nrm x y = 0 → x = 0 ∧ y = 0)
    (path : List Point) (hsum : (segmentLengths O path).sum = 0) :
    ∀ a ∈ path, ∀ b ∈ path, a = b := by
  induction path with
  | nil => intro a ha; cases ha
  | cons p rest ih =>
    intro a ha b hb
    cases rest with
    | nil =>
      rcases List.mem_singleton.mp ha with rfl
      rcases List.mem_singleton.mp hb with rfl
      rfl
    | cons q rest2 =>
      have hsl : segmentLengths O (p :: q :: rest2) =
          O.nrm (q.1 - p.1) (q.2 - p.2) :: segmentLengths O (q :: rest2) := rfl
      rw [hsl, List.sum_cons] at hsum
      have h2 : 0 ≤ (segmentLengths O (q :: rest2)).sum := by
        apply List.sum_nonneg
        intro x hx
        rcases List.mem_map.mp hx with ⟨d, _, rfl⟩
        exact hnn _ _
      have h1 : 0 ≤ O.nrm (q.1 - p.1) (q.2 - p.2) := hnn _ _
      have hz1 : O.nrm (q.1 - p.1) (q.2 - p.2) = 0 := by linarith
      have hz2 : (segmentLengths O (q :: rest2)).sum = 0 := by linarith
      have hpq : p = q := by
        rcases hdef _ _ hz1 with ⟨hx, hy⟩
        refine Prod.ext ?_ ?_
        · linarith
        · linarith
      have key : ∀ x ∈ p :: q :: rest2, x = q := by
        intro x hx
        rcases List.mem_cons.mp hx with rfl | hx2
        · exact hpq
        · exact ih hz2 x hx2 q (List.mem_cons_self q rest2)
      rw [key a ha, key b hb]

theorem crSegPath_dropped (O : GeoOps)
    (hnn : ∀ x y, 0 ≤ O.nrm x y) (hdef : ∀ x y, O.nrm x y = 0 → x = 0 ∧ y = 0)
    (points : List Point) (i k : Nat) (hk : 2 ≤ k)
    (h : computeSegmentInfo O (crSegPath points i k) = none) :
    points.getD i (0, 0) = points.getD (i + 1) (0, 0) := by
  rw [computeSegmentInfo_none_iff, totalLength] at h
  exact segmentLengths_sum_zero_all_eq O hnn hdef _ h
    _ (mem_of_head?_eq (crSegPath_head points i k hk))
    _ (mem_of_getLast?_eq (crSegPath_getLast points i k hk))

theorem crKept_mem_full (O : GeoOps) (points : List Point) (k i : Nat)
    (hi : i < points.length - 1) (info : SegInfo)
    (hkept : computeSegmentInfo O (crSegPath points i k) = some info)
    (x : Point) (hx : x ∈ crSegPath points i k) :
    x ∈ ((crKeptSegments O points k).map Prod.fst).join := by
  apply List.mem_join.mpr
  refine ⟨crSegPath points i k, ?_, hx⟩
  apply List.mem_map.mpr
  refine ⟨(crSegPath points i k, info), ?_, rfl⟩
  apply List.mem_filterMap.mpr
  refine ⟨i, List.mem_range.mpr hi, ?_⟩
  rw [hkept]
  rfl

theorem crReach_right (O : GeoOps)
    (hnn : ∀ x y, 0 ≤ O.nrm x y) (hdef : ∀ x y, O.nrm x y = 0 → x = 0 ∧ y = 0)
    (points : List Point) (k : Nat) (hk : 2 ≤ k) :
    ∀ (d j j' : Nat), j' - j ≤ d → j ≤ j' → j' < points.length - 1 →
      (∃ info, computeSegmentInfo O (crSegPath points j' k) = some info) →
      points.getD j (0, 0) ∈ ((crKeptSegments O points k).map Prod.fst).join := by
  intro d
  induction d with
  | zero =>
    rintro j j' hd hjj' hj' ⟨info, hinfo⟩
    have : j = j' := by omega
    subst this
    exact crKept_mem_full O points k j hj' info hinfo _
      (mem_of_head?_eq (crSegPath_head points j k hk))
  | succ d ih =>
    rintro j j' hd hjj' hj' hkept
    by_cases hKj : ∃ info, computeSegmentInfo O (crSegPath points j k) = some info
    · rcases hKj with ⟨info, hinfo⟩
      exact crKept_mem_full O points k j (lt_of_le_of_lt hjj' hj') info hinfo _
        (mem_of_head?_eq (crSegPath_head points j k hk))
    · have hnone : computeSegmentInfo O (crSegPath points j k) = none := by
        cases hcs : computeSegmentInfo O (crSegPath points j k) with
        | none => rfl
        | some info => exact absurd ⟨info, hcs⟩ hKj
      have heq := crSegPath_dropped O hnn hdef points j k hk hnone
      rw [heq]
      have hjne : j ≠ j' := by
        intro hcontra
        subst hcontra
        exact hKj hkept
      exact ih (j + 1) j' (by omega) (by omega) hj' hkept

theorem crReach_left (O : GeoOps)
    (hnn : ∀ x y, 0 ≤ O.nrm x y) (hdef : ∀ x y, O.nrm x y = 0 → x = 0 ∧ y = 0)
    (points : List Point) (k : Nat) (hk : 2 ≤ k) :
    ∀ (d j j' : Nat), j - (j' + 1) ≤ d → j' + 1 ≤ j → j < points.length →
      j' < points.length - 1 →
      (∃ info, computeSegmentInfo O (crSegPath points j' k) = some info) →
      points.getD j (0, 0) ∈ ((crKeptSegments O points k).map Prod.fst).join := by
  intro d
  induction d with
  | zero =>
    rintro j j' hd hjj' hjlt hj' ⟨info, hinfo⟩
    have : j = j' + 1 := by omega
    subst this
    exact crKept_mem_full O points k j' hj' info hinfo _
      (mem_of_getLast?_eq (crSegPath_getLast points j' k hk))
  | succ d ih =>
    rintro j j' hd hjj' hjlt hj' hkept
    by_cases hKj : ∃ info, computeSegmentInfo O (crSegPath points (j - 1) k) = some info
    · rcases hKj with ⟨info, hinfo⟩
      have hjm : j - 1 < points.length - 1 := by omega
      have hstep := crKept_mem_full O points k (j - 1) hjm info hinfo _
        (mem_of_getLast?_eq (crSegPath_getLast points (j - 1) k hk))
      have hidx : j - 1 + 1 = j := by omega
      rw [hidx] at hstep
      exact hstep
    · have hnone : computeSegmentInfo O (crSegPath points (j - 1) k) = none := by
        cases hcs : computeSegmentInfo O (crSegPath points (j - 1) k) with
        | none => rfl
        | some info => exact absurd ⟨info, hcs⟩ hKj
      have heq := crSegPath_dropped O hnn hdef points (j - 1) k hk hnone
      have hidx : j - 1 + 1 = j := by omega
      rw [hidx] at heq
      rw [← heq]
      have hjne : j - 1 ≠ j' := by
        intro hcontra
        rw [hcontra] at hnone
        rcases hkept with ⟨info, hinfo⟩
        rw [hinfo] at hnone
        cases hnone
      exact ih (j - 1) j' (by omega) (by omega) (by omega) hj' hkept

/-- C7: for `pathType = "spline"` with at least 3 waypoints, whenever the
multistop geometry builder returns a geometry, the concatenated path passes
through every original waypoint — each waypoint is one of the sample points
of the returned path, because each Catmull-Rom segment evaluates to `p1` at
`t = 0` and to `p2` at `t = 1` (with exact rational arithmetic the claim's
small tolerance is met exactly). -/
theorem spline_passes_waypoints_c7 (O : GeoOps)
    (hnn : ∀ x y, 0 ≤ O.nrm x y) (hdef : ∀ x y, O.nrm x y = 0 → x = 0 ∧ y = 0)
    (waypoints : List Point) (k : Nat) (curv : ℚ) (g : Geometry)
    (hk : 2 ≤ k) (hn : 3 ≤ waypoints.length)
    (hg : multistopGeometry O waypoints "spline" k curv = some g) :
    ∀ w ∈ waypoints, w ∈ g.full_path := by
  rw [multistopGeometry] at hg
  rw [if_neg (show ¬ (waypoints.length < 2) by omega)] at hg
  rw [if_neg (show ¬ ((("spline" : String) == "segments") = true) by decide)] at hg
  rw [if_neg (show ¬ ((waypoints.length == 2) = true) by
    intro hb
    have : waypoints.length = 2 := by simpa using hb
    omega)] at hg
  by_cases hemp : (crKeptSegments O waypoints k).isEmpty
  · rw [if_pos hemp] at hg
    cases hg
  · rw [if_neg hemp] at hg
    injection hg with hg'
    subst hg'
    have hne : crKeptSegments O waypoints k ≠ [] := by
      intro hnil
      rw [hnil] at hemp
      exact hemp rfl
    rcases List.exists_mem_of_ne_nil _ hne with ⟨pr, hpr⟩
    rcases List.mem_filterMap.mp hpr with ⟨i0, hi0mem, hi0⟩
    have hi0lt : i0 < waypoints.length - 1 := List.mem_range.mp hi0mem
    have hK0 : ∃ info, computeSegmentInfo O (crSegPath waypoints i0 k) = some info := by
      cases hcs : computeSegmentInfo O (crSegPath waypoints i0 k) with
      | none => rw [hcs] at hi0; cases hi0
      | some info => exact ⟨info, rfl⟩
    intro w hw
    rcases List.getElem_of_mem hw with ⟨j, hjlt, rfl⟩
    have hwg : waypoints[j] = waypoints.getD j (0, 0) :=
      (List.getD_eq_getElem _ _ hjlt).symm
    rw [hwg]
    show waypoints.getD j (0, 0) ∈ ((crKeptSegments O waypoints k).map Prod.fst).join
    by_cases hcmp : j ≤ i0
    · exact crReach_right O hnn hdef waypoints k hk (i0 - j) j i0 (by omega) hcmp
        hi0lt hK0
    · exact crReach_left O hnn hdef waypoints k hk (j - (i0 + 1)) j i0 (by omega)
        (by omega) hjlt hi0lt hK0

/-- The geometry produced in the C7 witness run: three collinear waypoints,
two Catmull-Rom segments sampled at their endpoints only. -/
def exampleGeomC7 : Geometry :=
  { full_path := [((0 : ℚ), (0 : ℚ)), (1, 0), (1, 0), (2, 0)]
    segments :=
      [{ path := [((0 : ℚ), (0 : ℚ)), (1, 0)], length := 1, midpoint := (0, 0),
         normal := (0, -1), angle := 0 },
       { path := [((1 : ℚ), (0 : ℚ)), (2, 0)], length := 1, midpoint := (1, 0),
         normal := (0, -1), angle := 0 }]
    total_length := 2
    waypoints := [((0 : ℚ), (0 : ℚ)), (1, 0), (2, 0)] }

theorem taxicab_nonneg (x y : ℚ) : 0 ≤ taxicabOps.nrm x y := by
  simp only [taxicabOps]
  positivity

theorem taxicab_definite (x y : ℚ) : taxicabOps.nrm x y = 0 → x = 0 ∧ y = 0 := by
  intro h
  simp only [taxicabOps] at h
  constructor
  · refine abs_eq_zero.mp (le_antisymm ?_ (abs_nonneg x))
    have := abs_nonneg y
    linarith
  · refine abs_eq_zero.mp (le_antisymm ?_ (abs_nonneg y))
    have := abs_nonneg x
    linarith

/-- Closed instance of `spline_passes_waypoints_c7`: a concrete 3-waypoint
spline run whose hypotheses (norm axioms, sample count, waypoint count, and
the concrete geometry equation) are discharged explicitly. -/
theorem spline_passes_waypoints_c7_witness :
    (2 ≤ 2) ∧ (3 ≤ ([((0 : ℚ), (0 : ℚ)), (1, 0), (2, 0)] : List Point).length) ∧
    multistopGeometry taxicabOps [((0 : ℚ), (0 : ℚ)), (1, 0), (2, 0)] "spline" 2 0 =
      some exampleGeomC7 ∧
    (∀ w ∈ ([((0 : ℚ), (0 : ℚ)), (1, 0), (2, 0)] : List Point),
      w ∈ exampleGeomC7.full_path) := by
  have hg : multistopGeometry taxicabOps [((0 : ℚ), (0 : ℚ)), (1, 0), (2, 0)] "spline" 2 0 =
      some exampleGeomC7 := by
    rw [multistopGeometry]
    rw [if_neg (show ¬ (([((0 : ℚ), (0 : ℚ)), (1, 0), (2, 0)] : List Point).length < 2) by
      norm_num)]
    rw [if_neg (show ¬ ((("spline" : String) == "segments") = true) by decide)]
    rw [if_neg (show ¬ ((([((0 : ℚ), (0 : ℚ)), (1, 0), (2, 0)] : List Point).length == 2)
        = true) by decide)]
    norm_num [crKeptSegments, crSegPath, catmullRomSegment, crPoly,
      linspace01, computeSegmentInfo, segmentLengths, pathDiffs, cumsum, cumsumFrom,
      searchsorted, nmin, taxicabOps, exampleGeomC7, List.range_succ, List.range_zero,
      List.findIdx?_cons, List.findIdx?_nil, List.filterMap_cons, List.filterMap_nil,
      List.join, Prod.ext_iff]
  refine ⟨by norm_num, by norm_num, hg, ?_⟩
  exact spline_passes_waypoints_c7 taxicabOps taxicab_nonneg taxicab_definite
    [((0 : ℚ), (0 : ℚ)), (1, 0), (2, 0)] 2 0 exampleGeomC7 (by norm_num) (by norm_num) hg

/-- Configuration values that `pairing.py` reads from the theme tables
(`EVENT_CONFIG['anchor_radius']` and the `event_text` / `event_subtext`
font sizes of `LABEL_STYLES`), passed explicitly as the spec's design notes
direct for module-level style tables. -/
structure PairingConfig where
  event_anchor_radius : ℚ
  event_fontsize : ℚ
  event_subtext_fontsize : ℚ
deriving DecidableEq

/-- Transcription of `PlacementManager.add_label`.  Modelled from the spec:
the extended keyword arguments (`ha`, `va`, `subtext`, `subtext_fontsize`)
accepted by the `add_label` version that `pairing.py` calls are not under
`src/`; per the spec the alignment hints are bookkeeping fields attached to
the element, and the bbox stays the estimate computed from the main text
(width `charCount * fontSize * 0.6`, height `fontSize * 1.2`, left edge at
the offset point, vertically centered), which matches the `add_label` body
that is in `src/`. -/
def add_label (m : PlacementManager) (id : String) (coords : Point) (text : String)
    (fontsize : ℚ) (xOffsetPts yOffsetPts : ℚ) (priority : Int)
    (elementType : String) (group : Option String) (ha va : Option String) :
    PlacementElement × PlacementManager :=
  let textWidthPts := (text.length : ℚ) * (fontsize * (6 / 10))
  let textHeightPts := fontsize * (12 / 10)
  let xOffsetDeg := xOffsetPts * m.dpp
  let yOffsetDeg := yOffsetPts * m.dpp
  let textWidthDeg := textWidthPts * m.dpp
  let textHeightDeg := textHeightPts * m.dpp
  let centerX := coords.1 + xOffsetDeg + textWidthDeg / 2
  let centerY := coords.2 + yOffsetDeg
  let e : PlacementElement :=
    { id := id, ty := elementType, coords := coords,
      offset := (xOffsetDeg, yOffsetDeg),
      bbox := ⟨centerX - textWidthDeg / 2, centerY - textHeightDeg / 2,
               centerX + textWidthDeg / 2, centerY + textHeightDeg / 2⟩,
      priority := priority, text := some text, group := group,
      ha := ha, va := va }
  (e, { m with elements := dictInsert m.elements e })

/-- The tier suffix of `_make_event_positions_3tier`:
`f"_t{int(multiplier * 10)}"`. -/
def tierSuffix (mult : ℚ) : String := "_t" ++ toString (⌊mult * 10⌋ : ℤ)

/-- Transcription of `_make_event_positions_3tier`: the 24 three-tier event
label positions.  The Python code adds each element to the manager under a
temporary id and removes it again, so the manager is net unchanged and only
the elements remain; each element's id is reset to the event candidate's id
and the alignment hints attached.  The subtext arguments do not affect the
modelled bbox (see `add_label`). -/
def makeEventPositions3Tier (cfg : PairingConfig) (cosDeg sinDeg : ℚ → ℚ)
    (eventCand : LabelCandidate) (eventSubtext : Option String)
    (m : PlacementManager) : List PlacementElement :=
  match eventCand.positions with
  | [] => []
  | p0 :: _ =>
    (([1, 13/10, 16/10] : List ℚ).map (fun mult =>
      let extraGap := cfg.event_anchor_radius * (mult - 1)
      (get_candidate_offsets cosDeg sinDeg cfg.event_anchor_radius extraGap
          cfg.event_fontsize).map (fun cand =>
        match cand with
        | (posName, xOff, yOff, ha, va) =>
          let e := (add_label m
            ("pair_evt_" ++ eventCand.id ++ "_" ++ posName ++ tierSuffix mult)
            p0.coords (p0.text.getD "") cfg.event_fontsize xOff yOff
            eventCand.priority "event_label" eventCand.group
            (some ha) (some va)).1
          { e with id := eventCand.id }))).join

/-- Modelled from the spec: the `PairedLabelCandidate` record imported by
`pairing.py` from the placement module is not under `src/`; per the spec it
is like `LabelCandidate` but each position is a pair of elements committed
together, and it carries a designated fallback index. -/
structure PairedLabelCandidate where
  id : String
  element_type : String
  priority : Int
  group : String
  positions : List (PlacementElement × PlacementElement)
  fallback_idx : Nat
deriving DecidableEq

/-- Maximum of two integers, written so the kernel evaluates it
(`max(city.priority, event.priority)`). -/
def imax (a b : Int) : Int := if a ≤ b then b else a

/-- The nested pair-building loops of `detect_and_pair`: every
(city position, event position) pair whose two bboxes do not intersect each
other, in city-major order, each copy re-tagged with the pair group; the
fallback index records the position of the first kept pair whose city
position index is at least 8, checked before the pair is appended. -/
def pairInnerStep (grp : String) (ic : Nat × PlacementElement)
    (acc : List (PlacementElement × PlacementElement) × Option Nat)
    (e : PlacementElement) :
    List (PlacementElement × PlacementElement) × Option Nat :=
  if bboxIntersects ic.2.bbox e.bbox then acc
  else
    let fb := if acc.2 = none ∧ 8 ≤ ic.1 then some acc.1.length else acc.2
    (acc.1 ++ [({ ic.2 with group := some grp }, { e with group := some grp })], fb)

/-- One city position's sweep over all event positions. -/
def pairCityStep (grp : String) (evtPositions : List PlacementElement)
    (acc : List (PlacementElement × PlacementElement) × Option Nat)
    (ic : Nat × PlacementElement) :
    List (PlacementElement × PlacementElement) × Option Nat :=
  evtPositions.foldl (pairInnerStep grp ic) acc

/-- Assembly of the two nested loops. -/
def buildPairedPositions (cityPositions evtPositions : List PlacementElement)
    (grp : String) : List (PlacementElement × PlacementElement) × Option Nat :=
  (cityPositions.enum).foldl (pairCityStep grp evtPositions) ([], none)

/-- Python `haystack.replace(needle, "", 1)` on character lists: drop the
first occurrence of a nonempty needle. -/
def dropFirstOccur (needle : List Char) : List Char → List Char
  | [] => []
  | h :: t =>
    if needle.isPrefixOf (h :: t) then (h :: t).drop needle.length
    else h :: dropFirstOccur needle t

/-- Python `s.replace(pat, "", 1)` on strings (`pat` nonempty in the one
call site, `'event_text_'`). -/
def strReplaceFirst (s pat : String) : String := ⟨dropFirstOccur pat.data s.data⟩

/-- The `dist < threshold` proximity test of `detect_and_pair`, with
`dist = sqrt(dx^2 + dy^2)`: the square root is monotone, so for a positive
threshold the test equals `dx^2 + dy^2 < threshold^2`, and a nonpositive
threshold admits nothing (the distance is nonnegative). -/
def distLt (a b : Point) (t : ℚ) : Bool :=
  if t ≤ 0 then false
  else (a.1 - b.1) ^ 2 + (a.2 - b.2) ^ 2 < t ^ 2

/-- The subtext option computed for an event candidate inside the scan
(`subtext_lookup.get` followed by `event_subtext or None`). -/
def eventSubtextOpt (subtexts : List (String × String)) (e : LabelCandidate) :
    Option String :=
  let subtext :=
    ((subtexts.find? (fun kv => kv.1 == strReplaceFirst e.id "event_text_")).map
      Prod.snd).getD ""
  if subtext == "" then none else some subtext

/-- Inner event scan of `detect_and_pair` for one city candidate: skip
events already paired, without positions, at or beyond the threshold, or
whose combination with the city yields zero non-overlapping pairs; the
first remaining event produces the paired candidate (the Python `break`). -/
def scanEvents (cfg : PairingConfig) (cosDeg sinDeg : ℚ → ℚ) (m : PlacementManager)
    (thresholdDeg : ℚ) (subtexts : List (String × String))
    (cityCand : LabelCandidate) (cityCoords : Point) (pairedEventIds : List String) :
    List LabelCandidate → Option (LabelCandidate × PairedLabelCandidate)
  | [] => none
  | e :: es =>
    if pairedEventIds.contains e.id then
      scanEvents cfg cosDeg sinDeg m thresholdDeg subtexts cityCand cityCoords
        pairedEventIds es
    else
      match he : e.positions with
      | [] =>
        scanEvents cfg cosDeg sinDeg m thresholdDeg subtexts cityCand cityCoords
          pairedEventIds es
      | p0 :: _ =>
        if !distLt cityCoords p0.coords thresholdDeg then
          scanEvents cfg cosDeg sinDeg m thresholdDeg subtexts cityCand cityCoords
            pairedEventIds es
        else
          let eventPositions := makeEventPositions3Tier cfg cosDeg sinDeg e
            (eventSubtextOpt subtexts e) m
          let grp := "paired_" ++ cityCand.id ++ "_" ++ e.id
          let bp := buildPairedPositions cityCand.positions eventPositions grp
          if bp.1.isEmpty then
            scanEvents cfg cosDeg sinDeg m thresholdDeg subtexts cityCand cityCoords
              pairedEventIds es
          else
            some (e,
              { id := "paired_" ++ cityCand.id ++ "_" ++ e.id
                element_type := "paired_label"
                priority := imax cityCand.priority e.priority
                group := grp
                positions := bp.1
                fallback_idx := bp.2.getD 0 })

/-- Fold state of `detect_and_pair`: the paired id sets and the paired
candidates, in insertion order. -/
structure PairState where
  pairedCityIds : List String
  pairedEventIds : List String
  paired : List PairedLabelCandidate
deriving DecidableEq

/-- Body of the `for city_cand in city_candidates` loop of
`detect_and_pair`. -/
def processCity (cfg : PairingConfig) (cosDeg sinDeg : ℚ → ℚ) (m : PlacementManager)
    (thresholdDeg : ℚ) (subtexts : List (String × String))
    (events : List LabelCandidate) (st : PairState) (city : LabelCandidate) :
    PairState :=
  match city.positions with
  | [] => st
  | p0 :: _ =>
    match scanEvents cfg cosDeg sinDeg m thresholdDeg subtexts city p0.coords
        st.pairedEventIds events with
    | none => st
    | some (e, pc) =>
      { pairedCityIds := st.pairedCityIds ++ [city.id]
        pairedEventIds := st.pairedEventIds ++ [e.id]
        paired := st.paired ++ [pc] }

/-- The fold of `detect_and_pair` over the city candidates, returning its
final state. -/
def detectAndPairState (cfg : PairingConfig) (cosDeg sinDeg : ℚ → ℚ)
    (cityCands eventCands : List LabelCandidate)
    (renderData : List (String × String)) (m : PlacementManager)
    (thresholdPts : ℚ) : PairState :=
  let thresholdDeg := thresholdPts * m.dpp
  let subtexts := renderData.foldl (fun acc kv => dictInsertKV acc kv.1 kv.2) []
  cityCands.foldl (processCity cfg cosDeg sinDeg m thresholdDeg subtexts eventCands)
    ⟨[], [], []⟩

/-- Transcription of `detect_and_pair`: the paired candidates plus the
remaining (unpaired) city and event candidate lists. -/
def detect_and_pair (cfg : PairingConfig) (cosDeg sinDeg : ℚ → ℚ)
    (cityCands eventCands : List LabelCandidate)
    (renderData : List (String × String)) (m : PlacementManager)
    (thresholdPts : ℚ) :
    List PairedLabelCandidate × List LabelCandidate × List LabelCandidate :=
  let st := detectAndPairState cfg cosDeg sinDeg cityCands eventCands renderData m
    thresholdPts
  (st.paired,
   cityCands.filter (fun c => !st.pairedCityIds.contains c.id),
   eventCands.filter (fun c => !st.pairedEventIds.contains c.id))

theorem pairInnerStep_inv (grp : String) (ic : Nat × PlacementElement)
    (acc : List (PlacementElement × PlacementElement) × Option Nat)
    (e : PlacementElement)
    (hinv : ∀ pr ∈ acc.1, bboxIntersects pr.1.bbox pr.2.bbox = false) :
    ∀ pr ∈ (pairInnerStep grp ic acc e).1,
      bboxIntersects pr.1.bbox pr.2.bbox = false := by
  intro pr hpr
  rw [pairInnerStep] at hpr
  split at hpr
  · exact hinv pr hpr
  · rcases List.mem_append.mp hpr with hold | hnew
    · exact hinv pr hold
    · rcases List.mem_singleton.mp hnew with rfl
      rename_i hni
      exact Bool.not_eq_true _ |>.mp hni

theorem pairInner_foldl_inv (grp : String) (ic : Nat × PlacementElement) :
    ∀ (es : List PlacementElement)
      (acc : List (PlacementElement × PlacementElement) × Option Nat),
      (∀ pr ∈ acc.1, bboxIntersects pr.1.bbox pr.2.bbox = false) →
      ∀ pr ∈ (es.foldl (pairInnerStep grp ic) acc).1,
        bboxIntersects pr.1.bbox pr.2.bbox = false := by
  intro es
  induction es with
  | nil => intro acc h; exact h
  | cons e es ih =>
    intro acc h
    exact ih _ (pairInnerStep_inv grp ic acc e h)

theorem buildPairedPositions_no_intersect (cps eps : List PlacementElement)
    (grp : String) :
    ∀ pr ∈ (buildPairedPositions cps eps grp).1,
      bboxIntersects pr.1.bbox pr.2.bbox = false := by
  rw [buildPairedPositions]
  have houter : ∀ (l : List (Nat × PlacementElement))
      (acc : List (PlacementElement × PlacementElement) × Option Nat),
      (∀ pr ∈ acc.1, bboxIntersects pr.1.bbox pr.2.bbox = false) →
      ∀ pr ∈ (l.foldl (pairCityStep grp eps) acc).1,
        bboxIntersects pr.1.bbox pr.2.bbox = false := by
    intro l
    induction l with
    | nil => intro acc h; exact h
    | cons ic l ih =>
      intro acc h
      exact ih _ (pairInner_foldl_inv grp ic eps acc h)
  exact houter cps.enum ([], none) (by intro pr hpr; cases hpr)

theorem scanEvents_positions_no_intersect (cfg : PairingConfig)
    (cosDeg sinDeg : ℚ → ℚ) (m : PlacementManager) (thresholdDeg : ℚ)
    (subtexts : List (String × String)) (cityCand : LabelCandidate)
    (cityCoords : Point) :
    ∀ (pids : List String) (events : List LabelCandidate)
      (e' : LabelCandidate) (pc : PairedLabelCandidate),
      scanEvents cfg cosDeg sinDeg m thresholdDeg subtexts cityCand cityCoords pids
        events = some (e', pc) →
      ∀ pr ∈ pc.positions, bboxIntersects pr.1.bbox pr.2.bbox = false := by
  intro pids events
  induction events with
  | nil => intro e' pc h; cases h
  | cons e es ih =>
    intro e' pc h
    rw [scanEvents] at h
    split at h
    · exact ih e' pc h
    · split at h
      · exact ih e' pc h
      · split at h
        · exact ih e' pc h
        · dsimp only at h
          split at h
          · exact ih e' pc h
          · have h2 := (Option.some.injEq _ _).mp h
            rcases (Prod.mk.injEq _ _ _ _).mp h2 with ⟨_, hpc⟩
            subst hpc
            exact buildPairedPositions_no_intersect _ _ _

/-- C4: every position of every `PairedLabelCandidate` returned by
`detect_and_pair` consists of a city element and an event element whose two
bounding boxes do not intersect each other, for all inputs. -/
theorem pairing_no_intersecting_pairs_c4 (cfg : PairingConfig)
    (cosDeg sinDeg : ℚ → ℚ) (cityCands eventCands : List LabelCandidate)
    (renderData : List (String × String)) (m : PlacementManager)
    (thresholdPts : ℚ) :
    ∀ pc ∈ (detect_and_pair cfg cosDeg sinDeg cityCands eventCands renderData m
        thresholdPts).1,
      ∀ pr ∈ pc.positions, bboxIntersects pr.1.bbox pr.2.bbox = false := by
  have hstep : ∀ (thresholdDeg : ℚ) (subtexts : List (String × String))
      (events : List LabelCandidate) (cs : List LabelCandidate) (st : PairState),
      (∀ pc ∈ st.paired, ∀ pr ∈ pc.positions,
        bboxIntersects pr.1.bbox pr.2.bbox = false) →
      ∀ pc ∈ (cs.foldl (processCity cfg cosDeg sinDeg m thresholdDeg subtexts events)
          st).paired,
        ∀ pr ∈ pc.positions, bboxIntersects pr.1.bbox pr.2.bbox = false := by
    intro thresholdDeg subtexts events cs
    induction cs with
    | nil => intro st h; exact h
    | cons c cs ih =>
      intro st h
      apply ih
      intro pc hpc
      rw [processCity] at hpc
      split at hpc
      · exact h pc hpc
      · split at hpc
        · exact h pc hpc
        · rename_i e0 pc0 heq
          rcases List.mem_append.mp hpc with hold | hnew
          · exact h pc hold
          · rcases List.mem_singleton.mp hnew with rfl
            exact scanEvents_positions_no_intersect cfg cosDeg sinDeg m thresholdDeg
              subtexts c _ _ _ _ _ heq
  intro pc hpc
  exact hstep _ _ _ cityCands ⟨[], [], []⟩ (by intro pc0 hpc0; cases hpc0) pc hpc

/-- Default placement element (used only as the `headD` fallback below). -/
def emptyElem : PlacementElement :=
  { id := "", ty := "", coords := (0, 0), offset := (0, 0),
    bbox := ⟨0, 0, 0, 0⟩, priority := 0 }

/-- Claim-side acceptance test for an event candidate during the scan for
one city: not already paired, has positions, its first-variant anchor lies
strictly within the threshold, and the city/event combination yields at
least one non-overlapping position pair. -/
def pairAccept (cfg : PairingConfig) (cosDeg sinDeg : ℚ → ℚ)
    (m : PlacementManager) (thresholdDeg : ℚ) (subtexts : List (String × String))
    (cityCand : LabelCandidate) (cityCoords : Point) (pids : List String)
    (e : LabelCandidate) : Bool :=
  !pids.contains e.id && !e.positions.isEmpty &&
    distLt cityCoords (e.positions.headD emptyElem).coords thresholdDeg &&
    !(buildPairedPositions cityCand.positions
        (makeEventPositions3Tier cfg cosDeg sinDeg e
          (eventSubtextOpt subtexts e) m)
        ("paired_" ++ cityCand.id ++ "_" ++ e.id)).1.isEmpty

/-- Claim-side paired candidate built for an accepted event. -/
def mkPairedCand (cfg : PairingConfig) (cosDeg sinDeg : ℚ → ℚ)
    (m : PlacementManager) (subtexts : List (String × String))
    (cityCand : LabelCandidate) (e : LabelCandidate) : PairedLabelCandidate :=
  let grp := "paired_" ++ cityCand.id ++ "_" ++ e.id
  let bp := buildPairedPositions cityCand.positions
    (makeEventPositions3Tier cfg cosDeg sinDeg e (eventSubtextOpt subtexts e) m) grp
  { id := grp
    element_type := "paired_label"
    priority := imax cityCand.priority e.priority
    group := grp
    positions := bp.1
    fallback_idx := bp.2.getD 0 }

theorem scanEvents_eq_find (cfg : PairingConfig) (cosDeg sinDeg : ℚ → ℚ)
    (m : PlacementManager) (thresholdDeg : ℚ) (subtexts : List (String × String))
    (cityCand : LabelCandidate) (cityCoords : Point) :
    ∀ (pids : List String) (events : List LabelCandidate),
      scanEvents cfg cosDeg sinDeg m thresholdDeg subtexts cityCand cityCoords pids
          events =
        (events.find? (pairAccept cfg cosDeg sinDeg m thresholdDeg subtexts cityCand
            cityCoords pids)).map
          (fun e => (e, mkPairedCand cfg cosDeg sinDeg m subtexts cityCand e)) := by
  intro pids events
  induction events with
  | nil => rfl
  | cons e es ih =>
    rw [scanEvents]
    by_cases hc : pids.contains e.id = true
    · rw [if_pos hc, ih, List.find?_cons_of_neg]
      intro hacc
      simp at hc
      simp [pairAccept, hc] at hacc
    · rw [if_neg hc]
      have hcf : pids.contains e.id = false := Bool.not_eq_true _ |>.mp hc
      cases hpos : e.positions with
      | nil =>
        rw [ih, List.find?_cons_of_neg]
        intro hacc
        simp [pairAccept, hpos] at hacc
      | cons p0 rest =>
        by_cases hd : distLt cityCoords p0.coords thresholdDeg = true
        · simp only [hd, Bool.not_true]
          rw [if_neg (show ¬ ((false : Bool) = true) by simp)]
          by_cases hemp : (buildPairedPositions cityCand.positions
              (makeEventPositions3Tier cfg cosDeg sinDeg e
                (eventSubtextOpt subtexts e) m)
              ("paired_" ++ cityCand.id ++ "_" ++ e.id)).1.isEmpty = true
          · rw [if_pos hemp, ih, List.find?_cons_of_neg]
            intro hacc
            simp only [List.isEmpty_iff] at hemp
            simp [pairAccept, hpos, hemp] at hacc
          · rw [if_neg hemp, List.find?_cons_of_pos]
            · rfl
            · have hempf : (buildPairedPositions cityCand.positions
                  (makeEventPositions3Tier cfg cosDeg sinDeg e
                    (eventSubtextOpt subtexts e) m)
                  ("paired_" ++ cityCand.id ++ "_" ++ e.id)).1.isEmpty = false :=
                Bool.not_eq_true _ |>.mp hemp
              simp at hcf hempf
              simp [pairAccept, hpos, hd, hempf, hcf]
        · have hdf : distLt cityCoords p0.coords thresholdDeg = false :=
            Bool.not_eq_true _ |>.mp hd
          simp only [hdf, Bool.not_false, if_true]
          rw [ih, List.find?_cons_of_neg]
          intro hacc
          simp [pairAccept, hpos, hdf] at hacc

/-- C5 (amended): in `detect_and_pair`, each city candidate's pair partner
is the first event candidate that is not already paired, has at least one
position, lies strictly within the threshold distance, and whose
combination with the city yields at least one non-overlapping position
pair; a within-threshold combination yielding zero non-overlapping pairs is
skipped and the scan continues with later events; the returned unpaired
lists consist exactly of the input candidates whose ids were never paired
during the run. -/
theorem pairing_first_fit_c5 :
    (∀ (cfg : PairingConfig) (cosDeg sinDeg : ℚ → ℚ) (m : PlacementManager)
        (thresholdDeg : ℚ) (subtexts : List (String × String))
        (cityCand : LabelCandidate) (cityCoords : Point) (pids : List String)
        (events : List LabelCandidate),
      scanEvents cfg cosDeg sinDeg m thresholdDeg subtexts cityCand cityCoords pids
          events =
        (events.find? (pairAccept cfg cosDeg sinDeg m thresholdDeg subtexts cityCand
            cityCoords pids)).map
          (fun e => (e, mkPairedCand cfg cosDeg sinDeg m subtexts cityCand e))) ∧
    (∀ (cfg : PairingConfig) (cosDeg sinDeg : ℚ → ℚ)
        (cityCands eventCands : List LabelCandidate)
        (renderData : List (String × String)) (m : PlacementManager)
        (thresholdPts : ℚ),
      (detect_and_pair cfg cosDeg sinDeg cityCands eventCands renderData m
          thresholdPts).2.1 =
        cityCands.filter (fun c =>
          !((detectAndPairState cfg cosDeg sinDeg cityCands eventCands renderData m
              thresholdPts).pairedCityIds.contains c.id)) ∧
      (detect_and_pair cfg cosDeg sinDeg cityCands eventCands renderData m
          thresholdPts).2.2 =
        eventCands.filter (fun c =>
          !((detectAndPairState cfg cosDeg sinDeg cityCands eventCands renderData m
              thresholdPts).pairedEventIds.contains c.id))) := by
  constructor
  · intro cfg cosDeg sinDeg m thresholdDeg subtexts cityCand cityCoords pids events
    exact scanEvents_eq_find cfg cosDeg sinDeg m thresholdDeg subtexts cityCand
      cityCoords pids events
  · intro cfg cosDeg sinDeg cityCands eventCands renderData m thresholdPts
    exact ⟨rfl, rfl⟩

/-- Rational stand-in for `cos(radians(90 - angle))` at the eight degree
arguments `get_candidate_offsets` produces, with `√2/2` approximated by
`7/10`; like the real cosine it is bounded by 1 in absolute value, which is
all the concrete runs below rely on. -/
def cosDegQ (d : ℚ) : ℚ :=
  if d = 45 then 7/10
  else if d = 0 then 1
  else if d = -225 then -(7/10)
  else if d = -180 then -1
  else if d = -45 then 7/10
  else if d = -135 then -(7/10)
  else if d = 90 then 0
  else if d = -90 then 0
  else 0

/-- Rational stand-in for `sin(radians(90 - angle))` at the same eight
degree arguments, bounded by 1 in absolute value. -/
def sinDegQ (d : ℚ) : ℚ :=
  if d = 45 then 7/10
  else if d = 0 then 0
  else if d = -225 then 7/10
  else if d = -180 then 0
  else if d = -45 then -(7/10)
  else if d = -135 then -(7/10)
  else if d = 90 then 1
  else if d = -90 then -1
  else 0

/-- The 200-character event text of the C5 counterexample (its label boxes
are about 1080 units wide, reaching the far-away city label box). -/
def longTextC5 : String := ⟨List.replicate 200 'a'⟩

/-- Pairing configuration of the concrete runs (the default theme values:
event anchor radius 12, event fontsize 9, subtext fontsize 7). -/
def cfgC5 : PairingConfig :=
  { event_anchor_radius := 12, event_fontsize := 9, event_subtext_fontsize := 7 }

/-- Manager for the concrete pairing runs: one degree per point, empty
store. -/
def mgrC5 : PlacementManager := { dpp := 1, elements := [] }

/-- City label position of the C5 counterexample: anchored at the origin
with its committed box far away at x in [1000, 1001], y in [-100, 100]. -/
def cityPosC5 : PlacementElement :=
  { id := "city1", ty := "city_label", coords := (0, 0), offset := (0, 0),
    bbox := ⟨1000, -100, 1001, 100⟩, priority := 48, group := none }

/-- City candidate of the C5 counterexample. -/
def cityCandC5 : LabelCandidate :=
  { id := "city1", element_type := "city_label", priority := 48, group := none,
    positions := [cityPosC5] }

/-- First event of the C5 counterexample: within threshold of the city, but
its 200-character label always overlaps the city's box. -/
def evtE1C5 : LabelCandidate :=
  { id := "event_text_e1", element_type := "event_label", priority := 38,
    group := none,
    positions :=
      [{ id := "event_text_e1", ty := "event_label", coords := (1, 0),
         offset := (0, 0), bbox := ⟨0, 0, 0, 0⟩, priority := 38,
         text := some longTextC5, group := none }] }

/-- Second event of the C5 counterexample: also within threshold, with a
one-character label that never reaches the city's box. -/
def evtE2C5 : LabelCandidate :=
  { id := "event_text_e2", element_type := "event_label", priority := 38,
    group := none,
    positions :=
      [{ id := "event_text_e2", ty := "event_label", coords := (2, 0),
         offset := (0, 0), bbox := ⟨0, 0, 0, 0⟩, priority := 38,
         text := some "E", group := none }] }

set_option maxRecDepth 4000 in
theorem longTextC5_length : longTextC5.length = 200 := by decide

theorem shortTextC5_length : ("E" : String).length = 1 := by decide

set_option maxRecDepth 8000 in
set_option maxHeartbeats 2000000 in
theorem buildPairedC5E1_nil :
    (buildPairedPositions cityCandC5.positions
      (makeEventPositions3Tier cfgC5 cosDegQ sinDegQ evtE1C5
        (eventSubtextOpt [] evtE1C5) mgrC5)
      ("paired_" ++ cityCandC5.id ++ "_" ++ evtE1C5.id)).1 = [] := by
  norm_num [buildPairedPositions, pairCityStep, pairInnerStep, List.enum,
    List.enumFrom, makeEventPositions3Tier, get_candidate_offsets, add_label,
    positionPriorityList, positionAngle, positionAlignment, cosDegQ, sinDegQ,
    bboxIntersects, cityCandC5, cityPosC5, evtE1C5, mgrC5, cfgC5,
    longTextC5_length, List.foldl_cons, List.foldl_nil, List.map_cons,
    List.map_nil, List.join]

set_option maxRecDepth 8000 in
set_option maxHeartbeats 4000000 in
theorem buildPairedC5E2_ne :
    (buildPairedPositions cityCandC5.positions
      (makeEventPositions3Tier cfgC5 cosDegQ sinDegQ evtE2C5
        (eventSubtextOpt [] evtE2C5) mgrC5)
      ("paired_" ++ cityCandC5.id ++ "_" ++ evtE2C5.id)).1.isEmpty = false := by
  norm_num [buildPairedPositions, pairCityStep, pairInnerStep, List.enum,
    List.enumFrom, makeEventPositions3Tier, get_candidate_offsets, add_label,
    positionPriorityList, positionAngle, positionAlignment, cosDegQ, sinDegQ,
    bboxIntersects, cityCandC5, cityPosC5, evtE2C5, mgrC5, cfgC5,
    shortTextC5_length, List.foldl_cons, List.foldl_nil, List.map_cons,
    List.map_nil, List.join]

theorem detectAndPairStateC5_eval :
    detectAndPairState cfgC5 cosDegQ sinDegQ [cityCandC5] [evtE1C5, evtE2C5] []
        mgrC5 10 =
      ⟨["city1"], ["event_text_e2"],
       [mkPairedCand cfgC5 cosDegQ sinDegQ mgrC5 [] cityCandC5 evtE2C5]⟩ := by
  have hacc1 : pairAccept cfgC5 cosDegQ sinDegQ mgrC5 (10 * mgrC5.dpp) []
      cityCandC5 cityPosC5.coords [] evtE1C5 = false := by
    simp only [pairAccept]
    rw [buildPairedC5E1_nil]
    simp
  have hacc2 : pairAccept cfgC5 cosDegQ sinDegQ mgrC5 (10 * mgrC5.dpp) []
      cityCandC5 cityPosC5.coords [] evtE2C5 = true := by
    simp only [pairAccept]
    rw [buildPairedC5E2_ne]
    norm_num [evtE2C5, cityPosC5, mgrC5, distLt, emptyElem]
  have hfind : ([evtE1C5, evtE2C5] : List LabelCandidate).find?
      (pairAccept cfgC5 cosDegQ sinDegQ mgrC5 (10 * mgrC5.dpp) [] cityCandC5
        cityPosC5.coords []) = some evtE2C5 := by
    rw [List.find?_cons_of_neg _ (by simp [hacc1])]
    exact List.find?_cons_of_pos _ hacc2
  have hscan : scanEvents cfgC5 cosDegQ sinDegQ mgrC5 (10 * mgrC5.dpp) []
      cityCandC5 cityPosC5.coords [] [evtE1C5, evtE2C5] =
      some (evtE2C5, mkPairedCand cfgC5 cosDegQ sinDegQ mgrC5 [] cityCandC5
        evtE2C5) := by
    rw [scanEvents_eq_find, hfind]
    rfl
  simp only [detectAndPairState, List.foldl_cons, List.foldl_nil]
  rw [processCity]
  rw [show cityCandC5.positions = [cityPosC5] from rfl]
  dsimp only
  rw [hscan]
  rfl

/-- C5 counterexample: in the concrete run with one city and two events,
the first event lies strictly within the threshold (first conjunct) and its
combination with the city yields zero non-overlapping pairs (second
conjunct), yet the city is not returned in the unpaired city list (third
conjunct, the list is empty): the scan continued and paired the city with
the second event instead (fifth conjunct), so the selected partner is not
the first within-threshold event and only that second event is consumed
from the event list (fourth conjunct). -/
theorem pairing_skip_c5_counterexample :
    distLt cityPosC5.coords ((evtE1C5.positions.headD emptyElem).coords)
        ((10 : ℚ) * mgrC5.dpp) = true ∧
    (buildPairedPositions cityCandC5.positions
        (makeEventPositions3Tier cfgC5 cosDegQ sinDegQ evtE1C5
          (eventSubtextOpt [] evtE1C5) mgrC5)
        ("paired_" ++ cityCandC5.id ++ "_" ++ evtE1C5.id)).1 = [] ∧
    (detect_and_pair cfgC5 cosDegQ sinDegQ [cityCandC5] [evtE1C5, evtE2C5] []
        mgrC5 10).2.1 = [] ∧
    ((detect_and_pair cfgC5 cosDegQ sinDegQ [cityCandC5] [evtE1C5, evtE2C5] []
        mgrC5 10).2.2).map (fun c => c.id) = ["event_text_e1"] ∧
    ((detect_and_pair cfgC5 cosDegQ sinDegQ [cityCandC5] [evtE1C5, evtE2C5] []
        mgrC5 10).1).map (fun pc => pc.id) = ["paired_city1_event_text_e2"] := by
  refine ⟨?_, buildPairedC5E1_nil, ?_, ?_, ?_⟩
  · norm_num [distLt, cityPosC5, evtE1C5, mgrC5]
  · dsimp only [detect_and_pair]
    rw [detectAndPairStateC5_eval]
    decide
  · dsimp only [detect_and_pair]
    rw [detectAndPairStateC5_eval]
    decide
  · dsimp only [detect_and_pair]
    rw [detectAndPairStateC5_eval]
    decide

/-- Closed instance of `pairing_no_intersecting_pairs_c4`: in the concrete
pairing run the returned paired candidate's first position pair has
non-intersecting boxes, obtained by applying the theorem at that input with
both membership hypotheses discharged concretely. -/
theorem pairing_no_intersecting_pairs_c4_witness :
    mkPairedCand cfgC5 cosDegQ sinDegQ mgrC5 [] cityCandC5 evtE2C5 ∈
      (detect_and_pair cfgC5 cosDegQ sinDegQ [cityCandC5] [evtE1C5, evtE2C5] []
        mgrC5 10).1 ∧
    (mkPairedCand cfgC5 cosDegQ sinDegQ mgrC5 [] cityCandC5
        evtE2C5).positions.headD (emptyElem, emptyElem) ∈
      (mkPairedCand cfgC5 cosDegQ sinDegQ mgrC5 [] cityCandC5 evtE2C5).positions ∧
    bboxIntersects
        ((mkPairedCand cfgC5 cosDegQ sinDegQ mgrC5 [] cityCandC5
            evtE2C5).positions.headD (emptyElem, emptyElem)).1.bbox
        ((mkPairedCand cfgC5 cosDegQ sinDegQ mgrC5 [] cityCandC5
            evtE2C5).positions.headD (emptyElem, emptyElem)).2.bbox = false := by
  have hmem : mkPairedCand cfgC5 cosDegQ sinDegQ mgrC5 [] cityCandC5 evtE2C5 ∈
      (detect_and_pair cfgC5 cosDegQ sinDegQ [cityCandC5] [evtE1C5, evtE2C5] []
        mgrC5 10).1 := by
    dsimp only [detect_and_pair]
    rw [detectAndPairStateC5_eval]
    exact List.mem_singleton.mpr rfl
  have hne : (mkPairedCand cfgC5 cosDegQ sinDegQ mgrC5 [] cityCandC5
      evtE2C5).positions ≠ [] := by
    intro h
    have h2 : (buildPairedPositions cityCandC5.positions
        (makeEventPositions3Tier cfgC5 cosDegQ sinDegQ evtE2C5
          (eventSubtextOpt [] evtE2C5) mgrC5)
        ("paired_" ++ cityCandC5.id ++ "_" ++ evtE2C5.id)).1 = [] := h
    have h3 := buildPairedC5E2_ne
    rw [h2] at h3
    simp at h3
  have hprmem : (mkPairedCand cfgC5 cosDegQ sinDegQ mgrC5 [] cityCandC5
      evtE2C5).positions.headD (emptyElem, emptyElem) ∈
      (mkPairedCand cfgC5 cosDegQ sinDegQ mgrC5 [] cityCandC5
        evtE2C5).positions := by
    cases hp : (mkPairedCand cfgC5 cosDegQ sinDegQ mgrC5 [] cityCandC5
        evtE2C5).positions with
    | nil => exact absurd hp hne
    | cons a l => simp
  exact ⟨hmem, hprmem, pairing_no_intersecting_pairs_c4 cfgC5 cosDegQ sinDegQ
    [cityCandC5] [evtE1C5, evtE2C5] [] mgrC5 10 _ hmem _ hprmem⟩

end HistoryCartopy
